import Mathlib

/-! # MunchApp/munchserver: handlers of `routes/` over an explicit document store

The HTTP handlers of `routes/reviews.go`, `routes/foodtrucks.go` and
`routes/users.go` are embedded as pure functions.  A handler takes what the Go
handler reads from its request (the identity that the middleware put into the
context, the `User-Agent` header, the decoded body, route parameters), what it
draws from its surroundings (the result of `uuid.NewRandom`, the clock, the
password hashing and token signing primitives) and the database, and returns
the status code, the response body, the database afterwards and the list of
collection accesses it performed.

Conventions
* `float64`/`float32` values are read over exact rationals (`ℚ`) in the
  documents and handlers of the first sections.  The review submission, whose
  arithmetic the Go code does in `float64`, is given a second time in the
  section on `float64`, on documents that hold `float64` values (`F64`), with
  rounding, overflow and not-a-number as in IEEE 754 binary64.
* A pointer field of a request struct is an `Option`; `nil` is `none`.
* A body that `json.Decoder.Decode` rejects is `none`.
* A collection is the list of its documents in insertion order.  `FindOne`
  returns the first match, `UpdateOne` rewrites the first match and is a
  no-op without a match, `InsertOne` fails on a unique-index violation.
-/

namespace MunchServer

/-! ## Data model -/

/-- Instants (`time.Time`), in nanoseconds since the Unix epoch, which is the
resolution of `time.Time`.  The only arithmetic the handlers do on instants is
`Add` and `Unix`. -/
abbrev Time := Int

/-- The zero `time.Time` (January 1, year 1, 00:00:00.000000000 UTC), which is
62135596800 seconds before the Unix epoch. -/
def zeroTime : Time := -62135596800 * 1000000000

/-- Go `Time.IsZero`. -/
def IsZero (t : Time) : Bool := t == zeroTime

/-- Go `time.Minute`: a `time.Duration` counts nanoseconds. -/
def Minute : Int := 60 * 1000000000

/-- Go `Time.Add` for a `time.Duration` (nanoseconds). -/
def Time.Add (t : Time) (d : Int) : Time := t + d

/-- Go `Time.Unix`: the whole seconds since the Unix epoch, rounded down. -/
def Time.Unix (t : Time) : Int := t / 1000000000

/-- The operating-hours table `[7][2]string`: seven day slots of an open and a
close string. -/
abbrev Hours := Fin 7 → Fin 2 → String

/-- Modelled from the spec: the declaration of `models.JSONUser` that
`routes/users.go` builds (with `PasswordHash`, `NameFirst`, `NameLast`,
`DateOfBirth`) is not among the sources (`models/user.go` declares an older
shape).  Fields are the ones of the composite literal in `PostRegisterHandler`;
the spec: identifier, name fields, email, password hash, arrays of
review-identifiers, owned-food-truck-identifiers, favorite-food-truck-identifiers. -/
structure JSONUser where
  ID : String
  PasswordHash : List Nat
  NameFirst : String
  NameLast : String
  Email : String
  DateOfBirth : Time
  Favorites : List String
  Reviews : List String
  OwnedFoodTrucks : List String
  deriving DecidableEq, Repr

/-- Modelled from the spec: the declaration of `models.JSONFoodTruck` is not
among the sources.  Fields are the ones of the composite literal in
`PostFoodTrucksHandler` together with `AvgRating` (read by `PostReviewsHandler`)
and `Status` (the spec: identifier, name, address, geo-location pair, owner,
operating-hours table, status flag, average rating, list of review identifiers,
photo URLs, contact fields, tags). -/
structure JSONFoodTruck where
  ID : String
  Name : String
  Address : String
  Location : ℚ × ℚ
  Owner : String
  Status : Bool
  AvgRating : ℚ
  Hours : Hours
  Reviews : List String
  Photos : List String
  Website : String
  PhoneNumber : String
  Description : String
  Tags : List String

/-- Modelled from the spec: the declaration of `models.JSONReview` that
`routes/reviews.go` builds (with `ReviewerName`, `FoodTruck`, `Origin`) is not
among the sources (`models/review.go` declares an older shape).  Fields are the
ones of the composite literal in `PostReviewsHandler`. -/
structure JSONReview where
  ID : String
  Reviewer : String
  ReviewerName : String
  FoodTruck : String
  Comment : String
  Rating : ℚ
  Date : Time
  Origin : String
  deriving DecidableEq, Repr

/-- The three collections of the database `Db`. -/
structure Database where
  users : List JSONUser
  foodTrucks : List JSONFoodTruck
  reviews : List JSONReview

/-- One access of a handler to a collection. -/
inductive Access where
  | read (collection : String)
  | write (collection : String)
  deriving DecidableEq, Repr

/-- What a handler leaves behind: status code, response body (if one was
written), the database afterwards and the collection accesses in order. -/
structure Response (β : Type) where
  status : Nat
  body : Option β
  db : Database
  trace : List Access

/-! ## Store operations -/

/-- Documents carry their identifier in the field `_id`. -/
class HasID (α : Type) where
  id : α → String

instance : HasID JSONUser := ⟨JSONUser.ID⟩
instance : HasID JSONFoodTruck := ⟨JSONFoodTruck.ID⟩
instance : HasID JSONReview := ⟨JSONReview.ID⟩

/-- Modelled from the spec: `dbutils.WithIDQuery` / `queries.WithID` are not
among the sources; the spec calls the lookup a unique-key lookup by
identifier. -/
def WithIDQuery {α : Type} [HasID α] (id : String) (doc : α) : Bool :=
  HasID.id doc == id

/-- Modelled from the spec: `queries.UserWithEmail` is not among the sources;
the login looks the user up by email. -/
def UserWithEmail (email : String) (u : JSONUser) : Bool :=
  u.Email == email

/-- Modelled from the spec: `dbutils.WithIDsQuery` is not among the sources; a
bulk identifier lookup. -/
def WithIDsQuery {α : Type} [HasID α] (ids : List String) (doc : α) : Bool :=
  ids.contains (HasID.id doc)

/-- Driver `Collection.FindOne(...).Decode`: the first document matching the
filter, `none` standing for the decode error on no match. -/
def FindOne {α : Type} (filter : α → Bool) : List α → Option α
  | [] => none
  | doc :: rest => if filter doc then some doc else FindOne filter rest

/-- Driver `Collection.Find`: the cursor over the documents matching the
filter, in collection order. -/
def Find {α : Type} (filter : α → Bool) (c : List α) : List α :=
  c.filter filter

/-- Driver `Cursor.All` into a slice variable that starts out `nil`: the
documents of the cursor, the slice staying `nil` (`none`) when the cursor holds
no document. -/
def CursorAll {α : Type} (cur : List α) : Option (List α) :=
  if cur.isEmpty then none else some cur

/-- Driver `Collection.UpdateOne`: rewrites the first document matching the
filter; without a match nothing changes and no error is reported. -/
def UpdateOne {α : Type} (filter : α → Bool) (update : α → α) : List α → List α
  | [] => []
  | doc :: rest => if filter doc then update doc :: rest else doc :: UpdateOne filter update rest

/-- Driver `Collection.InsertOne` on a collection whose only unique index is
`_id`: `none` is the duplicate-key error. -/
def InsertOne {α : Type} [HasID α] (doc : α) (c : List α) : Option (List α) :=
  if c.any (fun d => HasID.id d == HasID.id doc) then none else some (c ++ [doc])

/-- Modelled from the spec: the index set-up of the users collection is not
among the sources; the spec: email uniqueness is enforced by the store's unique
index.  `InsertOne` on users fails on a duplicate `_id` or a duplicate email. -/
def InsertOneUser (doc : JSONUser) (c : List JSONUser) : Option (List JSONUser) :=
  if c.any (fun d => d.ID == doc.ID || d.Email == doc.Email) then none else some (c ++ [doc])

/-- Modelled from the spec: `dbutils.PushReview` is not among the sources; the
spec: appends the review identifier to that user's review list. -/
def PushReview (reviewID : String) (u : JSONUser) : JSONUser :=
  { u with Reviews := u.Reviews ++ [reviewID] }

/-- Modelled from the spec: `queries.PushOwnedFoodTruck` is not among the
sources; the spec: appends the new food-truck identifier to that user's
owned-list. -/
def PushOwnedFoodTruck (foodTruckID : String) (u : JSONUser) : JSONUser :=
  { u with OwnedFoodTrucks := u.OwnedFoodTrucks ++ [foodTruckID] }

/-- Modelled from the spec: `dbutils.UpdateFoodTruckWithReview` is not among
the sources; the spec: appends the review identifier to the food truck's review
list and overwrites its average rating with the value computed in step 3. -/
def UpdateFoodTruckWithReview (newAvgRating : ℚ) (reviewID : String)
    (t : JSONFoodTruck) : JSONFoodTruck :=
  { t with AvgRating := newAvgRating, Reviews := t.Reviews ++ [reviewID] }

/-! ## Surroundings of a handler -/

/-- What a handler draws from outside the request and the database: the result
of `uuid.NewRandom` (`none` is its error) and the clock. -/
structure Env where
  uuid : Option String
  now : Time

/-- The string of the zero UUID, which is what `uuid.String()` yields when the
error of `uuid.NewRandom` is dropped. -/
def nilUUID : String := "00000000-0000-0000-0000-000000000000"

/-- The password-hashing primitive (`golang.org/x/crypto/bcrypt`), an external
collaborator.  `GenerateFromPassword` takes the password and the salt it draws
and returns the hash, or `none` for a non-nil error (the returned hash is then
`nil`); `CompareHashAndPassword` is `true` when the Go function returns a nil
error. -/
structure Bcrypt where
  GenerateFromPassword : String → Nat → Option (List Nat)
  CompareHashAndPassword : List Nat → String → Bool

/-- Claims set of `jwt.StandardClaims` as far as the login fills it. -/
structure StandardClaims where
  ExpiresAt : Int
  Subject : String
  deriving DecidableEq, Repr

/-- The signing primitive: `jwt.NewWithClaims(jwt.SigningMethodHS256, claims)`
followed by `SignedString(jwtSecret)`; `none` is its error. -/
abbrev Signer := StandardClaims → Option String

/-! ## Regular expressions, as far as the handlers use them -/

/-- Syntax of the regular expressions that occur in the handlers. -/
inductive Regexp where
  | lit (c : Char)
  | digit
  | beginText
  | endText
  | cat (a b : Regexp)
  | times (r : Regexp) (n : Nat)

/-- The Perl class `\\d` of Go regular expressions: the ASCII digits `[0-9]`. -/
def isASCIIDigit (x : Char) : Bool := decide (48 ≤ x.toNat) && decide (x.toNat ≤ 57)

/-- Runs a position-to-positions matcher `n` times in sequence. -/
def iterate (f : Bool × List Char → List (Bool × List Char)) :
    Nat → Bool × List Char → List (Bool × List Char)
  | 0, p => [p]
  | n + 1, p => (f p).flatMap (iterate f n)

/-- All positions at which a match of the expression that starts at the given
position can end.  A position is the remaining text and whether it is the
beginning of the text.  `\d` is the ASCII class `[0-9]`; `^` and `$` hold only
at the beginning and the end of the text (no multi-line flag). -/
def Regexp.run : Regexp → Bool × List Char → List (Bool × List Char)
  | .lit c, (_, x :: xs) => if x = c then [(false, xs)] else []
  | .lit _, (_, []) => []
  | .digit, (_, x :: xs) => if isASCIIDigit x then [(false, xs)] else []
  | .digit, (_, []) => []
  | .beginText, p => if p.1 then [p] else []
  | .endText, p => if p.2.isEmpty then [p] else []
  | .cat a b, p => (a.run p).flatMap (fun q => b.run q)
  | .times r n, p => iterate (fun q => r.run q) n p

/-- Unanchored search from a position onwards. -/
def searchFrom (re : Regexp) : Bool → List Char → Bool
  | atStart, [] => !(re.run (atStart, [])).isEmpty
  | atStart, c :: cs => !(re.run (atStart, c :: cs)).isEmpty || searchFrom re false cs

/-- Go `regexp.MatchString` for a pattern that compiles: whether the text
contains any match of the expression.  (Its error result is non-nil only for a
pattern that does not compile.) -/
def MatchString (re : Regexp) (s : String) : Bool :=
  searchFrom re true s.data

/-- The pattern `^\d{2}:\d{2}$` of the hours validation. -/
def hoursPattern : Regexp :=
  .cat .beginText (.cat (.times .digit 2) (.cat (.lit ':') (.cat (.times .digit 2) .endText)))

/-- The shape two ASCII digits, colon, two ASCII digits. -/
def IsHHMM (s : String) : Prop :=
  ∃ a b c d : Char, a.isDigit = true ∧ b.isDigit = true ∧ c.isDigit = true ∧ d.isDigit = true ∧
    s = String.mk [a, b, ':', c, d]

/-! ## routes/reviews.go -/

/-- Request body of `POST /reviews` (`newReviewRequest`). -/
structure newReviewRequest where
  ReviewerName : String
  FoodTruck : Option String
  Comment : String
  Rating : Option ℚ
  Date : Time
  Origin : String

/-- `PostReviewsHandler` of routes/reviews.go.  `identity` is the value the
middleware stored under `middleware.UserKey` (`none`: the type assertion to
string fails).  Lines 64 and 65 are read over exact rationals here;
`Float64.PostReviewsHandler` computes them in `float64`. -/
def PostReviewsHandler (env : Env) (identity : Option String) (userAgent : String)
    (body : Option newReviewRequest) (db : Database) : Response JSONReview :=
  -- Get user from context
  let user := identity.getD ""
  let userLoggedIn := identity.isSome
  -- Check for a user, or if the user agent is from the scraper
  if !userLoggedIn && userAgent != "MunchCritic/1.0" then
    { status := 401, body := none, db := db, trace := [] }
  else
  -- Decode request
  match body with
  | none => { status := 400, body := none, db := db, trace := [] }
  | some newReview =>
  -- Make sure required fields set
  if (!userLoggedIn && newReview.ReviewerName == "") ||
      newReview.FoodTruck.isNone ||
      newReview.Rating.isNone then
    { status := 400, body := none, db := db, trace := [] }
  else
  let foodTruckID := newReview.FoodTruck.getD ""
  let rating := newReview.Rating.getD 0
  -- Lookup food truck
  match FindOne (WithIDQuery foodTruckID) db.foodTrucks with
  | none => { status := 404, body := none, db := db, trace := [.read "foodTrucks"] }
  | some foodTruck =>
  -- Calculate rating sum to determine new avg rating
  let ratingSum := (foodTruck.Reviews.length : ℚ) * foodTruck.AvgRating
  let newAvgRating := (ratingSum + rating) / ((foodTruck.Reviews.length + 1 : ℕ) : ℚ)
  -- Generate uuid for review (the error of uuid.NewRandom is dropped)
  let uuid := env.uuid.getD nilUUID
  let date := if IsZero newReview.Date then env.now else newReview.Date
  let origin := if newReview.Origin == "" then "munchapp" else newReview.Origin
  let reviewer := if userLoggedIn then user else ""
  let addedReview : JSONReview :=
    { ID := uuid
      Reviewer := reviewer
      ReviewerName := newReview.ReviewerName
      FoodTruck := foodTruckID
      Comment := newReview.Comment
      Rating := rating
      Date := date
      Origin := origin }
  -- Add review to database
  match InsertOne addedReview db.reviews with
  | none =>
    { status := 500, body := none, db := db,
      trace := [.read "foodTrucks", .write "reviews"] }
  | some reviews =>
  -- Attach review to user
  let users := if userLoggedIn then UpdateOne (WithIDQuery user) (PushReview uuid) db.users
    else db.users
  -- Attach review to food truck
  let foodTrucks :=
    UpdateOne (WithIDQuery foodTruckID) (UpdateFoodTruckWithReview newAvgRating uuid) db.foodTrucks
  -- Send response
  { status := 200, body := some addedReview,
    db := { users := users, foodTrucks := foodTrucks, reviews := reviews },
    trace := [.read "foodTrucks", .write "reviews"] ++
      (if userLoggedIn then [.write "users"] else []) ++ [.write "foodTrucks"] }

/-- `GetReviewsOfFoodTruckHandler` of routes/reviews.go; `foodTruckID` is the
route parameter (`none`: absent from `mux.Vars`). -/
def GetReviewsOfFoodTruckHandler (foodTruckID : Option String) (db : Database) :
    Response (List JSONReview) :=
  match foodTruckID with
  | none => { status := 400, body := none, db := db, trace := [] }
  | some foodTruckID =>
  -- Check that food truck exists
  match FindOne (WithIDQuery foodTruckID) db.foodTrucks with
  | none => { status := 404, body := none, db := db, trace := [.read "foodTrucks"] }
  | some foodTruck =>
  -- Get all reviews with foodtruck from the database into a cursor
  let cur := Find (WithIDsQuery foodTruck.Reviews) db.reviews
  -- Get reviews from cursor, convert to empty slice if no reviews in DB
  let reviews := (CursorAll cur).getD []
  { status := 200, body := some reviews, db := db,
    trace := [.read "foodTrucks", .read "reviews"] }

/-- `GetReviewHandler` of routes/reviews.go; `reviewID` is the route parameter. -/
def GetReviewHandler (reviewID : Option String) (db : Database) : Response JSONReview :=
  match reviewID with
  | none => { status := 400, body := none, db := db, trace := [] }
  | some reviewID =>
  -- Get review from database
  match FindOne (WithIDQuery reviewID) db.reviews with
  | none => { status := 500, body := none, db := db, trace := [.read "reviews"] }
  | some review => { status := 200, body := some review, db := db, trace := [.read "reviews"] }

/-! ## routes/foodtrucks.go -/

/-- Request body of `POST /foodtrucks` (`addFoodTruckRequest`).  A slice that
is `nil` is `none`. -/
structure addFoodTruckRequest where
  Name : Option String
  Address : Option String
  Location : ℚ × ℚ
  Hours : Option Hours
  Photos : Option (List String)
  Website : String
  PhoneNumber : String
  Description : String
  Tags : Option (List String)

/-- Request body of `PUT /foodtrucks/{foodTruckID}` (`updateFoodTruckRequest`).
A slice that is `nil` is `none`. -/
structure updateFoodTruckRequest where
  Name : String
  Address : String
  Location : ℚ × ℚ
  Owner : String
  Status : Bool
  AvgRating : ℚ
  Hours : Hours
  Reviews : Option (List String)
  Photos : Option (List String)
  Website : String
  PhoneNumber : String
  Description : String
  Tags : Option (List String)

/-- The loop `for i := 0; i < 7; i++` of the hours validation over the day
slots still to visit: `some 400` is the early return, `none` is falling out
of the loop. -/
def validateHours (hours : Hours) : List (Fin 7) → Option Nat
  | [] => none
  | i :: rest =>
    let validOpenTime := MatchString hoursPattern (hours i 0)
    let validCloseTime := MatchString hoursPattern (hours i 1)
    if !validOpenTime || !validCloseTime then some 400
    else validateHours hours rest

/-- `PostFoodTrucksHandler` of routes/foodtrucks.go. -/
def PostFoodTrucksHandler (env : Env) (identity : Option String) (userAgent : String)
    (body : Option addFoodTruckRequest) (db : Database) : Response Unit :=
  -- Get user from context
  let user := identity.getD ""
  let userLoggedIn := identity.isSome
  -- Check for a user, or if the user agent is from the scraper
  if !userLoggedIn && userAgent != "MunchCritic/1.0" then
    { status := 401, body := none, db := db, trace := [] }
  else
  -- Decode request
  match body with
  | none => { status := 400, body := none, db := db, trace := [] }
  | some newFoodTruck =>
  -- Make sure required fields are set
  match newFoodTruck.Name, newFoodTruck.Address, newFoodTruck.Hours, newFoodTruck.Photos with
  | some name, some address, some hours, some photos =>
    -- Validate hours
    match validateHours hours (List.finRange 7) with
    | some code => { status := code, body := none, db := db, trace := [] }
    | none =>
    -- Generate uuid for food truck
    match env.uuid with
    | none => { status := 500, body := none, db := db, trace := [] }
    | some uuid =>
    -- Set tags to an empty array if they do not exist
    let tags := newFoodTruck.Tags.getD []
    let addedFoodTruck : JSONFoodTruck :=
      { ID := uuid
        Name := name
        Address := address
        Location := newFoodTruck.Location
        Owner := user
        Status := false
        AvgRating := 0
        Hours := hours
        Reviews := []
        Photos := photos
        Website := newFoodTruck.Website
        PhoneNumber := newFoodTruck.PhoneNumber
        Description := newFoodTruck.Description
        Tags := tags }
    -- Add food truck to database
    match InsertOne addedFoodTruck db.foodTrucks with
    | none => { status := 500, body := none, db := db, trace := [.write "foodTrucks"] }
    | some foodTrucks =>
    -- Update user that owns food truck
    if user != "" then
      { status := 200, body := none,
        db := { users := UpdateOne (WithIDQuery user) (PushOwnedFoodTruck uuid) db.users,
                foodTrucks := foodTrucks, reviews := db.reviews },
        trace := [.write "foodTrucks", .write "users"] }
    else
      { status := 200, body := none,
        db := { users := db.users, foodTrucks := foodTrucks, reviews := db.reviews },
        trace := [.write "foodTrucks"] }
  | _, _, _, _ => { status := 400, body := none, db := db, trace := [] }

/-- Values that the update handler puts into its `bson.D`. -/
inductive BsonValue where
  | str (v : String)
  | bool (v : Bool)
  | float (v : ℚ)
  | location (v : ℚ × ℚ)
  | strings (v : List String)

/-- An ordered document `bson.D` of key/value elements `bson.E`. -/
abbrev BsonD := List (String × BsonValue)

/-- Go `len` of a `[2]float64`: the length of an array type. -/
def lenLocation (_ : ℚ × ℚ) : Nat := 2

/-- Lines 204 to 268 of `PutFoodTrucksHandler`: the fields to update, or the
status code of the early return out of the hours validation. -/
def updateData (currentFoodTruck : updateFoodTruckRequest) : Except Nat BsonD :=
  -- Set tags to an empty array if they do not exist
  let tags := currentFoodTruck.Tags.getD []
  -- Determine which fields should be updated
  let d0 : BsonD := []
  let d1 := if currentFoodTruck.Name != "" then d0 ++ [("name", .str currentFoodTruck.Name)] else d0
  let d2 := if currentFoodTruck.Address != "" then
    d1 ++ [("address", .str currentFoodTruck.Address)] else d1
  let d3 := if lenLocation currentFoodTruck.Location != 0 then
    d2 ++ [("location", .location currentFoodTruck.Location)] else d2
  let d4 := if currentFoodTruck.Owner != "" then d3 ++ [("owner", .str currentFoodTruck.Owner)] else d3
  let d5 := if currentFoodTruck.Status != false then
    d4 ++ [("status", .bool currentFoodTruck.Status)] else d4
  let d6 := if currentFoodTruck.AvgRating != 0 then
    d5 ++ [("avgRating", .float currentFoodTruck.AvgRating)] else d5
  -- Validate hours if updating
  match (if currentFoodTruck.Hours 0 0 != "" then
      validateHours currentFoodTruck.Hours (List.finRange 7) else none) with
  | some code => .error code
  | none =>
  let d7 := match currentFoodTruck.Photos with
    | some photos => d6 ++ [("photos", .strings photos)]
    | none => d6
  let d8 := if currentFoodTruck.Website != "" then
    d7 ++ [("website", .str currentFoodTruck.Website)] else d7
  let d9 := if currentFoodTruck.PhoneNumber != "" then
    d8 ++ [("phoneNumber", .str currentFoodTruck.PhoneNumber)] else d8
  let d10 := if currentFoodTruck.Description != "" then
    d9 ++ [("description", .str currentFoodTruck.Description)] else d9
  let d11 := if (currentFoodTruck.Tags.getD []).length != 0 then
    d10 ++ [("tags", .strings tags)] else d10
  .ok d11

/-- The store's `$set` of one element on a food-truck document, keyed by the
bson field names. -/
def setField (t : JSONFoodTruck) (key : String) : BsonValue → JSONFoodTruck
  | .str v =>
    if key = "name" then { t with Name := v }
    else if key = "address" then { t with Address := v }
    else if key = "owner" then { t with Owner := v }
    else if key = "website" then { t with Website := v }
    else if key = "phoneNumber" then { t with PhoneNumber := v }
    else if key = "description" then { t with Description := v }
    else t
  | .bool v => if key = "status" then { t with Status := v } else t
  | .float v => if key = "avgRating" then { t with AvgRating := v } else t
  | .location v => if key = "location" then { t with Location := v } else t
  | .strings v =>
    if key = "photos" then { t with Photos := v }
    else if key = "tags" then { t with Tags := v }
    else t

/-- The store's update `{"$set": updateData}` on a food-truck document. -/
def applySet (d : BsonD) (t : JSONFoodTruck) : JSONFoodTruck :=
  d.foldl (fun acc e => setField acc e.1 e.2) t

/-- `PutFoodTrucksHandler` of routes/foodtrucks.go; `foodTruckID` is the route
parameter.  The call on line 275 is read as
`UpdateOne(r.Context(), queries.WithID(foodTruckID), update)`. -/
def PutFoodTrucksHandler (foodTruckID : Option String) (identity : Option String)
    (userAgent : String) (body : Option updateFoodTruckRequest) (db : Database) :
    Response Unit :=
  -- Checks for food truck ID
  match foodTruckID with
  | none => { status := 400, body := none, db := db, trace := [] }
  | some foodTruckID =>
  -- Get user from context
  let userLoggedIn := identity.isSome
  -- Check for a user, or if the user agent is from the scraper
  if !userLoggedIn && userAgent != "MunchCritic/1.0" then
    { status := 401, body := none, db := db, trace := [] }
  else
  -- Decode request
  match body with
  | none => { status := 400, body := none, db := db, trace := [] }
  | some currentFoodTruck =>
  match updateData currentFoodTruck with
  | .error code => { status := code, body := none, db := db, trace := [] }
  | .ok d =>
  -- Update food truck document
  { status := 200, body := none,
    db := { users := db.users,
            foodTrucks := UpdateOne (WithIDQuery foodTruckID) (applySet d) db.foodTrucks,
            reviews := db.reviews },
    trace := [.write "foodTrucks"] }

/-! ## routes/users.go -/

/-- Request body of `POST /register` (`registerRequest`). -/
structure registerRequest where
  NameFirst : Option String
  NameLast : Option String
  Email : Option String
  Password : Option String
  DateOfBirth : Option Time

/-- Request body of `POST /login` (`loginRequest`). -/
structure loginRequest where
  Email : Option String
  Password : Option String

/-- Response body of `POST /login` (`loginResponse`). -/
structure loginResponse where
  Token : String
  deriving DecidableEq, Repr

/-- `PostRegisterHandler` of routes/users.go; `salt` is the randomness that
`bcrypt.GenerateFromPassword` draws. -/
def PostRegisterHandler (bcrypt : Bcrypt) (salt : Nat) (env : Env)
    (body : Option registerRequest) (db : Database) : Response Unit :=
  -- Decode registered user data
  match body with
  | none => { status := 400, body := none, db := db, trace := [] }
  | some newUser =>
  -- Make sure all fields in registered user are provided
  match newUser.NameFirst, newUser.NameLast, newUser.Email, newUser.Password,
      newUser.DateOfBirth with
  | some nameFirst, some nameLast, some email, some password, some dateOfBirth =>
    -- Salt and hash password (the error is assigned and never looked at: the
    -- next statement overwrites it; on an error the hash is the nil slice)
    let hashedPassword := (bcrypt.GenerateFromPassword password salt).getD []
    -- Generate a random uuidv4
    match env.uuid with
    | none => { status := 500, body := none, db := db, trace := [] }
    | some uuid =>
    -- Create and insert user into database
    let registeredUser : JSONUser :=
      { ID := uuid
        PasswordHash := hashedPassword
        NameFirst := nameFirst
        NameLast := nameLast
        Email := email
        DateOfBirth := dateOfBirth
        Favorites := []
        Reviews := []
        OwnedFoodTrucks := [] }
    match InsertOneUser registeredUser db.users with
    -- If there is an error, it is most likely a duplicate user (email must be unique)
    | none => { status := 409, body := none, db := db, trace := [.write "users"] }
    | some users =>
      { status := 200, body := none,
        db := { users := users, foodTrucks := db.foodTrucks, reviews := db.reviews },
        trace := [.write "users"] }
  | _, _, _, _, _ => { status := 400, body := none, db := db, trace := [] }

/-- `PostLoginHandler` of routes/users.go. -/
def PostLoginHandler (bcrypt : Bcrypt) (sign : Signer) (env : Env)
    (body : Option loginRequest) (db : Database) : Response loginResponse :=
  -- Decode login user
  match body with
  | none => { status := 400, body := none, db := db, trace := [] }
  | some login =>
  -- Make sure all fields in request are provided
  match login.Email, login.Password with
  | some email, some password =>
    -- Find user in database
    match FindOne (UserWithEmail email) db.users with
    | none => { status := 401, body := none, db := db, trace := [.read "users"] }
    | some user =>
    -- Check if password matches
    if !bcrypt.CompareHashAndPassword user.PasswordHash password then
      { status := 401, body := none, db := db, trace := [.read "users"] }
    else
    -- Create a JWT for the user that expires in 15 minutes
    let claims : StandardClaims :=
      { ExpiresAt := (env.now.Add (Minute * 15)).Unix
        Subject := user.ID }
    match sign claims with
    | none => { status := 500, body := none, db := db, trace := [.read "users"] }
    | some jwtString =>
      -- Create the response
      { status := 200, body := some { Token := jwtString }, db := db, trace := [.read "users"] }
  | _, _ => { status := 401, body := none, db := db, trace := [] }

/-! ## Runs of review submissions -/

/-- The average rating stored for a food-truck identifier, if there is such a
food truck. -/
def storedAvgRating (db : Database) (ft : String) : Option ℚ :=
  (FindOne (WithIDQuery ft) db.foodTrucks).map JSONFoodTruck.AvgRating

/-- One review submission: everything `PostReviewsHandler` receives besides the
database, with a body that decodes. -/
structure Submission where
  env : Env
  identity : Option String
  userAgent : String
  request : newReviewRequest

/-- The handler on one submission. -/
def submit (db : Database) (s : Submission) : Response JSONReview :=
  PostReviewsHandler s.env s.identity s.userAgent (some s.request) db

/-- The database after sequential submissions with nothing in between. -/
def submitAll (db : Database) : List Submission → Database
  | [] => db
  | s :: rest => submitAll (submit db s).db rest

/-- Every submission of the run answers 200. -/
def allSucceed (db : Database) : List Submission → Prop
  | [] => True
  | s :: rest => (submit db s).status = 200 ∧ allSucceed (submit db s).db rest

/-- The identifiers of the reviews that the responses of the run carry, in
submission order. -/
def createdIDs (db : Database) : List Submission → List String
  | [] => []
  | s :: rest =>
    (match (submit db s).body with
      | some review => [review.ID]
      | none => []) ++ createdIDs (submit db s).db rest

/-- The rating a submission carries (0 when the field is absent). -/
def Submission.rating (s : Submission) : ℚ := s.request.Rating.getD 0

/-! ## Sample data -/

/-- An hours table with the same valid pair in every slot. -/
def sampleHours : Hours := fun _ _ => "09:00"

/-- A food truck with one earlier review and average rating 4. -/
def sampleTruck : JSONFoodTruck :=
  { ID := "truck-1", Name := "Tacos", Address := "1 Main St", Location := (1, 2), Owner := "user-1",
    Status := false, AvgRating := 4, Hours := sampleHours, Reviews := ["review-0"],
    Photos := [], Website := "", PhoneNumber := "", Description := "", Tags := [] }

/-- A registered user. -/
def sampleUser : JSONUser :=
  { ID := "user-1", PasswordHash := [1, 2, 3], NameFirst := "Ann", NameLast := "Lee",
    Email := "a@x.com", DateOfBirth := 0, Favorites := [], Reviews := ["review-0"],
    OwnedFoodTrucks := ["truck-1"] }

/-- A database with one user, one food truck and no review documents. -/
def sampleDb : Database :=
  { users := [sampleUser], foodTrucks := [sampleTruck], reviews := [] }

/-- A review request for the sample food truck with rating 5. -/
def sampleReview : newReviewRequest :=
  { ReviewerName := "bob", FoodTruck := some "truck-1", Comment := "good", Rating := some 5,
    Date := zeroTime, Origin := "" }

/-- Surroundings that hand out the identifier `review-1` at time 1000. -/
def sampleEnv : Env := { uuid := some "review-1", now := 1000 }

/-- A creation request with every required field and a valid hours table. -/
def sampleCreate : addFoodTruckRequest :=
  { Name := some "Burgers", Address := some "2 Side St", Location := (3, 4),
    Hours := some sampleHours, Photos := some [], Website := "", PhoneNumber := "",
    Description := "", Tags := none }

/-- Surroundings that hand out the identifier `truck-2`. -/
def sampleCreateEnv : Env := { uuid := some "truck-2", now := 900 }

/-- Two submissions on `truck-2`: rating 4 by the logged-in `user-1`, then
rating 2 without identity from the scraper under the name bob. -/
def sampleRun : List Submission :=
  [ { env := { uuid := some "review-1", now := 1000 }, identity := some "user-1", userAgent := "",
      request := { sampleReview with FoodTruck := some "truck-2", Rating := some 4, ReviewerName := "" } },
    { env := { uuid := some "review-2", now := 1001 }, identity := none,
      userAgent := "MunchCritic/1.0",
      request := { sampleReview with FoodTruck := some "truck-2", Rating := some 2 } } ]

/-- An update request that only renames the food truck: every other field is
absent from the body and so holds its zero value. -/
def sampleUpdate : updateFoodTruckRequest :=
  { Name := "Renamed", Address := "", Location := (0, 0), Owner := "", Status := false,
    AvgRating := 0, Hours := fun _ _ => "", Reviews := none, Photos := none, Website := "",
    PhoneNumber := "", Description := "", Tags := none }

/-- An hours table whose first open string is empty and whose second slot does
not match the pattern. -/
def sampleBadHours : Hours := fun i j => if i = 1 ∧ j = 0 then "9am" else ""

/-- A stand-in for the hashing primitive on sample data: the hash is the list
of character codes of the password followed by the salt; like bcrypt it
returns an error for a password of more than 72 bytes. -/
def sampleBcrypt : Bcrypt :=
  { GenerateFromPassword := fun password salt =>
      if 72 < password.utf8ByteSize then none
      else some (password.data.map Char.toNat ++ [salt])
    CompareHashAndPassword := fun hash password =>
      hash.take password.length == password.data.map Char.toNat && hash.length == password.length + 1 }

/-- A registration request with all five fields. -/
def sampleRegister : registerRequest :=
  { NameFirst := some "some", NameLast := some "tester", Email := some "tester@example.com",
    Password := some "password123", DateOfBirth := some (-22014000 * 1000000000) }

/-- A login request for an address that nobody registered. -/
def sampleLogin : loginRequest :=
  { Email := some "invalid@email.com", Password := some "notMyPassword" }

/-- A stand-in for the signing primitive on sample data. -/
def sampleSigner : Signer := fun claims => some (claims.Subject ++ ".signed")

/-- The stored review `review-0`, which the sample food truck lists. -/
def sampleStoredReview : JSONReview :=
  { ID := "review-0", Reviewer := "user-1", ReviewerName := "", FoodTruck := "truck-1",
    Comment := "fine", Rating := 4, Date := 500, Origin := "munchapp" }

/-- The sample database with two stored reviews that both name `truck-1` in
their `FoodTruck` field; only `review-0` is in the review list of the truck. -/
def sampleReviewsDb : Database :=
  { sampleDb with
    reviews := [sampleStoredReview, { sampleStoredReview with ID := "review-9", Rating := 1 }] }

/-- A password of 73 bytes, one more than bcrypt hashes. -/
def longPassword : String := String.mk (List.replicate 73 'a')

/-! ## float64 arithmetic

The handlers of `routes/reviews.go` compute the average rating in Go's
`float64`, the IEEE 754 binary64 format with rounding to nearest, ties to even.
`F64` holds the values of that format; the two zeros are not told apart (the
handler divides only by `float64(len + 1)`, which is never zero).  Every
operation rounds on its own: the product of line 64 is not fused with the sum
of line 65, which is how the Go compiler translates them for amd64. -/

/-- Values of `float64`: the finite ones by their rational value, the two
infinities and not-a-number. -/
inductive F64 where
  | finite (q : ℚ)
  | posInf
  | negInf
  | nan
  deriving DecidableEq

/-- Search for the binade of a positive rational: halves or doubles `a` until
it lies in `[1, 2)` and counts the steps. -/
def binadeAux : ℕ → ℚ → ℤ → ℤ
  | 0, _, e => e
  | fuel + 1, a, e =>
    if 2 ≤ a then binadeAux fuel (a / 2) (e + 1)
    else if a < 1 then binadeAux fuel (a * 2) (e - 1)
    else e

/-- The exponent `e` with `2 ^ e ≤ a < 2 ^ (e + 1)` of a positive rational `a`
between `2 ^ (-4400)` and `2 ^ 4400`, a range that holds every non-zero sum,
product and quotient of two finite `float64` values.  Outside that range the
search stops at -4400 or 4400, which `roundF64` treats like the true exponent:
below -1022 only the fixed spacing counts, and a magnitude of `2 ^ 4400` or
more overflows. -/
def binade (a : ℚ) : ℤ := binadeAux 4400 a 0

/-- Rounding of a rational to the nearest integer, ties to the even one. -/
def roundHalfEven (x : ℚ) : ℤ :=
  let f := ⌊x⌋
  if 2 * x < 2 * f + 1 then f
  else if 2 * f + 1 < 2 * x then f + 1
  else if f % 2 = 0 then f else f + 1

/-- Rounding of an exact result to `float64`: 53 significant bits, the
smallest exponent of a normal number is -1022 (below it the spacing stays
`2 ^ (-1074)`), and a rounded magnitude of `2 ^ 1024` or more overflows to the
infinity of its sign. -/
def roundF64 (x : ℚ) : F64 :=
  if x = 0 then .finite 0
  else
    let p : ℤ := max (binade |x|) (-1022) - 52
    let y : ℚ := (roundHalfEven (x / 2 ^ p) : ℚ) * 2 ^ p
    if (2 : ℚ) ^ (1024 : ℤ) ≤ |y| then (if 0 < x then .posInf else .negInf)
    else .finite y

/-- Go conversion `float64(n)` of a non-negative `int`. -/
def F64.ofNat (n : ℕ) : F64 := roundF64 n

/-- Go `*` on `float64`. -/
def F64.mul : F64 → F64 → F64
  | .nan, _ => .nan
  | _, .nan => .nan
  | .finite a, .finite b => roundF64 (a * b)
  | .finite a, .posInf => if a = 0 then .nan else if 0 < a then .posInf else .negInf
  | .finite a, .negInf => if a = 0 then .nan else if 0 < a then .negInf else .posInf
  | .posInf, .finite b => if b = 0 then .nan else if 0 < b then .posInf else .negInf
  | .negInf, .finite b => if b = 0 then .nan else if 0 < b then .negInf else .posInf
  | .posInf, .posInf => .posInf
  | .posInf, .negInf => .negInf
  | .negInf, .posInf => .negInf
  | .negInf, .negInf => .posInf

/-- Go `+` on `float64`. -/
def F64.add : F64 → F64 → F64
  | .nan, _ => .nan
  | _, .nan => .nan
  | .finite a, .finite b => roundF64 (a + b)
  | .finite _, .posInf => .posInf
  | .finite _, .negInf => .negInf
  | .posInf, .finite _ => .posInf
  | .negInf, .finite _ => .negInf
  | .posInf, .posInf => .posInf
  | .negInf, .negInf => .negInf
  | .posInf, .negInf => .nan
  | .negInf, .posInf => .nan

/-- Go `/` on `float64`; a zero divisor is taken as the positive zero. -/
def F64.div : F64 → F64 → F64
  | .nan, _ => .nan
  | _, .nan => .nan
  | .finite a, .finite b =>
    if b = 0 then (if a = 0 then .nan else if 0 < a then .posInf else .negInf)
    else roundF64 (a / b)
  | .finite _, .posInf => .finite 0
  | .finite _, .negInf => .finite 0
  | .posInf, .finite b => if 0 ≤ b then .posInf else .negInf
  | .negInf, .finite b => if 0 ≤ b then .negInf else .posInf
  | .posInf, .posInf => .nan
  | .posInf, .negInf => .nan
  | .negInf, .posInf => .nan
  | .negInf, .negInf => .nan

namespace Float64

/-- The food-truck document with its numbers in `float64` (see
`MunchServer.JSONFoodTruck` for the fields). -/
structure JSONFoodTruck where
  ID : String
  Name : String
  Address : String
  Location : F64 × F64
  Owner : String
  Status : Bool
  AvgRating : F64
  Hours : Hours
  Reviews : List String
  Photos : List String
  Website : String
  PhoneNumber : String
  Description : String
  Tags : List String

/-- The review document with its rating in `float64` (see
`MunchServer.JSONReview` for the fields). -/
structure JSONReview where
  ID : String
  Reviewer : String
  ReviewerName : String
  FoodTruck : String
  Comment : String
  Rating : F64
  Date : Time
  Origin : String
  deriving DecidableEq

/-- The three collections of the database `Db`. -/
structure Database where
  users : List JSONUser
  foodTrucks : List JSONFoodTruck
  reviews : List JSONReview

/-- What a handler leaves behind: status code, response body (if one was
written), the database afterwards and the collection accesses in order. -/
structure Response (β : Type) where
  status : Nat
  body : Option β
  db : Database
  trace : List Access

instance : HasID JSONFoodTruck := ⟨JSONFoodTruck.ID⟩
instance : HasID JSONReview := ⟨JSONReview.ID⟩

/-- Modelled from the spec: `dbutils.UpdateFoodTruckWithReview` is not among
the sources; the spec: appends the review identifier to the food truck's review
list and overwrites its average rating with the value computed in step 3. -/
def UpdateFoodTruckWithReview (newAvgRating : F64) (reviewID : String)
    (t : JSONFoodTruck) : JSONFoodTruck :=
  { t with AvgRating := newAvgRating, Reviews := t.Reviews ++ [reviewID] }

/-- Request body of `POST /reviews` (`newReviewRequest`); `encoding/json`
decodes a rating into a finite `float64`. -/
structure newReviewRequest where
  ReviewerName : String
  FoodTruck : Option String
  Comment : String
  Rating : Option F64
  Date : Time
  Origin : String

/-- `PostReviewsHandler` of routes/reviews.go, lines 64 and 65 in `float64`. -/
def PostReviewsHandler (env : Env) (identity : Option String) (userAgent : String)
    (body : Option newReviewRequest) (db : Database) : Response JSONReview :=
  -- Get user from context
  let user := identity.getD ""
  let userLoggedIn := identity.isSome
  -- Check for a user, or if the user agent is from the scraper
  if !userLoggedIn && userAgent != "MunchCritic/1.0" then
    { status := 401, body := none, db := db, trace := [] }
  else
  -- Decode request
  match body with
  | none => { status := 400, body := none, db := db, trace := [] }
  | some newReview =>
  -- Make sure required fields set
  if (!userLoggedIn && newReview.ReviewerName == "") ||
      newReview.FoodTruck.isNone ||
      newReview.Rating.isNone then
    { status := 400, body := none, db := db, trace := [] }
  else
  let foodTruckID := newReview.FoodTruck.getD ""
  let rating := newReview.Rating.getD (.finite 0)
  -- Lookup food truck
  match FindOne (WithIDQuery foodTruckID) db.foodTrucks with
  | none => { status := 404, body := none, db := db, trace := [.read "foodTrucks"] }
  | some foodTruck =>
  -- Calculate rating sum to determine new avg rating
  let ratingSum := F64.mul (F64.ofNat foodTruck.Reviews.length) foodTruck.AvgRating
  let newAvgRating := F64.div (F64.add ratingSum rating) (F64.ofNat (foodTruck.Reviews.length + 1))
  -- Generate uuid for review (the error of uuid.NewRandom is dropped)
  let uuid := env.uuid.getD nilUUID
  let date := if IsZero newReview.Date then env.now else newReview.Date
  let origin := if newReview.Origin == "" then "munchapp" else newReview.Origin
  let reviewer := if userLoggedIn then user else ""
  let addedReview : JSONReview :=
    { ID := uuid
      Reviewer := reviewer
      ReviewerName := newReview.ReviewerName
      FoodTruck := foodTruckID
      Comment := newReview.Comment
      Rating := rating
      Date := date
      Origin := origin }
  -- Add review to database
  match InsertOne addedReview db.reviews with
  | none =>
    { status := 500, body := none, db := db,
      trace := [.read "foodTrucks", .write "reviews"] }
  | some reviews =>
  -- Attach review to user
  let users := if userLoggedIn then UpdateOne (WithIDQuery user) (PushReview uuid) db.users
    else db.users
  -- Attach review to food truck
  let foodTrucks :=
    UpdateOne (WithIDQuery foodTruckID) (UpdateFoodTruckWithReview newAvgRating uuid) db.foodTrucks
  -- Send response
  { status := 200, body := some addedReview,
    db := { users := users, foodTrucks := foodTrucks, reviews := reviews },
    trace := [.read "foodTrucks", .write "reviews"] ++
      (if userLoggedIn then [.write "users"] else []) ++ [.write "foodTrucks"] }

/-- The expression of lines 64 and 65: the new average from the stored
average, the number of listed reviews and the submitted rating. -/
def newAvgRating (avgRating : F64) (reviews : ℕ) (rating : F64) : F64 :=
  F64.div (F64.add (F64.mul (F64.ofNat reviews) avgRating) rating) (F64.ofNat (reviews + 1))

/-- The average rating stored for a food-truck identifier, if there is such a
food truck. -/
def storedAvgRating (db : Database) (ft : String) : Option F64 :=
  (FindOne (WithIDQuery ft) db.foodTrucks).map JSONFoodTruck.AvgRating

/-- One review submission: everything `PostReviewsHandler` receives besides the
database, with a body that decodes. -/
structure Submission where
  env : Env
  identity : Option String
  userAgent : String
  request : newReviewRequest

/-- The handler on one submission. -/
def submit (db : Database) (s : Submission) : Response JSONReview :=
  PostReviewsHandler s.env s.identity s.userAgent (some s.request) db

/-- The database after sequential submissions with nothing in between. -/
def submitAll (db : Database) : List Submission → Database
  | [] => db
  | s :: rest => submitAll (submit db s).db rest

/-- Every submission of the run answers 200. -/
def allSucceed (db : Database) : List Submission → Prop
  | [] => True
  | s :: rest => (submit db s).status = 200 ∧ allSucceed (submit db s).db rest

/-- The identifiers of the reviews that the responses of the run carry, in
submission order. -/
def createdIDs (db : Database) : List Submission → List String
  | [] => []
  | s :: rest =>
    (match (submit db s).body with
      | some review => [review.ID]
      | none => []) ++ createdIDs (submit db s).db rest

/-- The rating a submission carries (0 when the field is absent). -/
def Submission.rating (s : Submission) : F64 := s.request.Rating.getD (.finite 0)

end Float64

/-! ## Sample data in float64 -/

namespace Float64

end Float64

/-! # Lemmas and theorems -/

/-! ## The hours pattern -/

theorem isASCIIDigit_eq_isDigit (x : Char) : isASCIIDigit x = x.isDigit := by
  simp only [isASCIIDigit, Char.isDigit, Char.toNat, ge_iff_le, UInt32.le_def, Fin.le_def]
  rfl

theorem run_cat (a b : Regexp) (p : Bool × List Char) :
    (Regexp.cat a b).run p = (a.run p).flatMap (fun q => b.run q) := by
  simp [Regexp.run]

theorem run_lit_cons (b : Bool) (c x : Char) (xs : List Char) :
    (Regexp.lit c).run (b, x :: xs) = if x = c then [(false, xs)] else [] := by
  simp [Regexp.run]

theorem run_lit_nil (b : Bool) (c : Char) : (Regexp.lit c).run (b, []) = [] := by
  simp [Regexp.run]

theorem run_beginText (p : Bool × List Char) :
    Regexp.beginText.run p = if p.1 then [p] else [] := by
  simp [Regexp.run]

theorem run_two_digits (b : Bool) (l : List Char) :
    (Regexp.times .digit 2).run (b, l) =
      match l with
      | x :: y :: rest => if isASCIIDigit x ∧ isASCIIDigit y then [(false, rest)] else []
      | _ => [] := by
  rcases l with _ | ⟨x, _ | ⟨y, rest⟩⟩
  · simp [Regexp.run, iterate]
  · cases hx : isASCIIDigit x <;> simp [Regexp.run, iterate, hx]
  · cases hx : isASCIIDigit x <;> cases hy : isASCIIDigit y <;>
      simp [Regexp.run, iterate, hx, hy]

theorem run_digits_end (b : Bool) (l : List Char) :
    (Regexp.cat (.times .digit 2) .endText).run (b, l) =
      match l with
      | [x, y] => if isASCIIDigit x ∧ isASCIIDigit y then [(false, [])] else []
      | _ => [] := by
  rw [run_cat, run_two_digits]
  rcases l with _ | ⟨x, _ | ⟨y, _ | ⟨z, rest⟩⟩⟩
  · simp
  · simp
  · cases hx : isASCIIDigit x <;> cases hy : isASCIIDigit y <;> simp [Regexp.run, hx, hy]
  · cases hx : isASCIIDigit x <;> cases hy : isASCIIDigit y <;> simp [Regexp.run, hx, hy]

theorem run_colon_digits_end (b : Bool) (l : List Char) :
    (Regexp.cat (.lit ':') (.cat (.times .digit 2) .endText)).run (b, l) =
      match l with
      | [c, x, y] => if c = ':' ∧ isASCIIDigit x ∧ isASCIIDigit y then [(false, [])] else []
      | _ => [] := by
  rw [run_cat]
  rcases l with _ | ⟨c, l⟩
  · simp [run_lit_nil]
  · by_cases hc : c = ':'
    · simp only [run_lit_cons, hc, if_true, List.flatMap_cons, List.flatMap_nil, List.append_nil]
      rw [run_digits_end]
      rcases l with _ | ⟨x, _ | ⟨y, _ | ⟨z, rest⟩⟩⟩ <;> simp
    · simp only [run_lit_cons, hc, if_false, List.flatMap_nil]
      rcases l with _ | ⟨x, _ | ⟨y, _ | ⟨z, rest⟩⟩⟩ <;> simp [hc]

theorem run_hoursPattern_start (l : List Char) :
    hoursPattern.run (true, l) =
      match l with
      | [a, b, c, x, y] =>
        if isASCIIDigit a ∧ isASCIIDigit b ∧ c = ':' ∧ isASCIIDigit x ∧ isASCIIDigit y
        then [(false, [])] else []
      | _ => [] := by
  unfold hoursPattern
  rw [run_cat, run_beginText]
  simp only [if_true, List.flatMap_cons, List.flatMap_nil, List.append_nil]
  rw [run_cat, run_two_digits]
  rcases l with _ | ⟨a, _ | ⟨b, l⟩⟩
  · simp
  · simp
  · cases ha : isASCIIDigit a <;> cases hb : isASCIIDigit b <;>
      simp only [ha, hb, and_self, and_false, false_and, true_and, if_true, if_false, List.flatMap_cons, List.flatMap_nil,
        List.append_nil, Bool.false_eq_true]
    · rcases l with _ | ⟨c, _ | ⟨x, _ | ⟨y, _ | ⟨z, rest⟩⟩⟩⟩ <;> simp [ha]
    · rcases l with _ | ⟨c, _ | ⟨x, _ | ⟨y, _ | ⟨z, rest⟩⟩⟩⟩ <;> simp [ha]
    · rcases l with _ | ⟨c, _ | ⟨x, _ | ⟨y, _ | ⟨z, rest⟩⟩⟩⟩ <;> simp [hb]
    · rw [run_colon_digits_end]
      rcases l with _ | ⟨c, _ | ⟨x, _ | ⟨y, _ | ⟨z, rest⟩⟩⟩⟩ <;> simp [ha, hb]

theorem run_hoursPattern_notStart (l : List Char) : hoursPattern.run (false, l) = [] := by
  simp [hoursPattern, Regexp.run]

theorem searchFrom_hoursPattern_false (cs : List Char) :
    searchFrom hoursPattern false cs = false := by
  induction cs with
  | nil => simp [searchFrom, run_hoursPattern_notStart]
  | cons c cs ih => simp [searchFrom, run_hoursPattern_notStart, ih]

theorem MatchString_hoursPattern (s : String) :
    MatchString hoursPattern s = true ↔ IsHHMM s := by
  obtain ⟨l⟩ := s
  unfold MatchString IsHHMM
  simp only [← isASCIIDigit_eq_isDigit, String.ext_iff]
  have key : searchFrom hoursPattern true l = !(hoursPattern.run (true, l)).isEmpty := by
    cases l <;> simp [searchFrom, searchFrom_hoursPattern_false]
  rw [key, run_hoursPattern_start]
  constructor
  · intro h
    rcases l with _ | ⟨a, _ | ⟨b, _ | ⟨c, _ | ⟨x, _ | ⟨y, _ | ⟨z, rest⟩⟩⟩⟩⟩⟩ <;> simp at h
    obtain ⟨ha, hb, hc, hx, hy⟩ := h
    exact ⟨a, b, x, y, ha, hb, hx, hy, by simp [hc]⟩
  · rintro ⟨a, b, x, y, ha, hb, hx, hy, h⟩
    subst h
    simp [ha, hb, hx, hy]

/-! ## Store lemmas -/

theorem FindOne_UpdateOne_same {α : Type} (p : α → Bool) (f : α → α)
    (hf : ∀ x, p (f x) = p x) (c : List α) :
    FindOne p (UpdateOne p f c) = (FindOne p c).map f := by
  induction c with
  | nil => rfl
  | cons x xs ih =>
    by_cases hx : p x = true
    · simp [FindOne, UpdateOne, hx, hf]
    · simp [FindOne, UpdateOne, hx, ih]

theorem FindOne_UpdateOne_other {α : Type} (p q : α → Bool) (f : α → α)
    (hf : ∀ x, q (f x) = q x) (hpq : ∀ x, p x = true → q x = false) (c : List α) :
    FindOne q (UpdateOne p f c) = FindOne q c := by
  induction c with
  | nil => rfl
  | cons x xs ih =>
    by_cases hx : p x = true
    · simp [FindOne, UpdateOne, hx, hf, hpq x hx]
    · simp [FindOne, UpdateOne, hx, ih]

theorem InsertOne_eq_some {α : Type} [HasID α] (doc : α) (c c2 : List α)
    (h : InsertOne doc c = some c2) :
    c2 = c ++ [doc] ∧ ∀ d ∈ c, HasID.id d ≠ HasID.id doc := by
  unfold InsertOne at h
  split at h
  · cases h
  · rename_i hany
    simp only [Option.some.injEq] at h
    refine ⟨h.symm, ?_⟩
    intro d hd heq
    apply hany
    simp only [List.any_eq_true, beq_iff_eq]
    exact ⟨d, hd, heq⟩

theorem FindOne_append_fresh {α : Type} (p : α → Bool) (c : List α) (doc : α)
    (hc : ∀ d ∈ c, p d = false) (hdoc : p doc = true) :
    FindOne p (c ++ [doc]) = some doc := by
  induction c with
  | nil => simp [FindOne, hdoc]
  | cons x xs ih =>
    have hx : p x = false := hc x (List.mem_cons_self _ _)
    simp only [List.cons_append, FindOne, hx, Bool.false_eq_true, if_false]
    exact ih (fun d hd => hc d (List.mem_cons_of_mem _ hd))

/-- A run of `PostReviewsHandler` that answers 200, spelled out. -/
theorem PostReviewsHandler_ok (env : Env) (identity : Option String) (userAgent : String)
    (req : newReviewRequest) (db : Database)
    (hok : (PostReviewsHandler env identity userAgent (some req) db).status = 200) :
    ∃ ft r truck,
      req.FoodTruck = some ft ∧ req.Rating = some r ∧
      FindOne (WithIDQuery ft) db.foodTrucks = some truck ∧
      (identity.isSome = true ∨ userAgent = "MunchCritic/1.0") ∧
      (identity.isSome = true ∨ req.ReviewerName ≠ "") ∧
      (∀ d ∈ db.reviews, d.ID ≠ env.uuid.getD nilUUID) ∧
      (PostReviewsHandler env identity userAgent (some req) db).db.foodTrucks =
        UpdateOne (WithIDQuery ft)
          (UpdateFoodTruckWithReview
            ((truck.AvgRating * truck.Reviews.length + r) / (truck.Reviews.length + 1))
            (env.uuid.getD nilUUID)) db.foodTrucks ∧
      (PostReviewsHandler env identity userAgent (some req) db).db.users =
        (if identity.isSome then
          UpdateOne (WithIDQuery (identity.getD "")) (PushReview (env.uuid.getD nilUUID)) db.users
         else db.users) ∧
      ∃ rev, (PostReviewsHandler env identity userAgent (some req) db).body = some rev ∧
        (PostReviewsHandler env identity userAgent (some req) db).db.reviews = db.reviews ++ [rev] ∧
        rev.ID = env.uuid.getD nilUUID ∧
        rev.Reviewer = identity.getD "" ∧ rev.ReviewerName = req.ReviewerName ∧
        rev.FoodTruck = ft ∧ rev.Rating = r := by
  unfold PostReviewsHandler at hok ⊢
  simp only at hok ⊢
  split at hok
  · simp at hok
  · rename_i hgate
    split at hok
    · simp at hok
    · rename_i hreq
      rcases hF : req.FoodTruck with _ | ft
      · simp [hF] at hreq
      rcases hR : req.Rating with _ | r
      · simp [hR] at hreq
      simp only [hF, hR, Option.getD_some] at hok hreq ⊢
      split at hok
      · simp at hok
      · rename_i truck hfind
        split at hok
        · simp at hok
        · rename_i reviews hins
          obtain ⟨hrev, hfresh⟩ := InsertOne_eq_some _ _ _ hins
          have hgate2 : identity.isSome = true ∨ userAgent = "MunchCritic/1.0" := by
            cases identity <;> simp_all
          have hname : identity.isSome = true ∨ req.ReviewerName ≠ "" := by
            cases identity <;> simp_all
          have havg : ((truck.Reviews.length : ℚ) * truck.AvgRating + r) /
              ((truck.Reviews.length + 1 : ℕ) : ℚ) =
              (truck.AvgRating * truck.Reviews.length + r) / (truck.Reviews.length + 1) := by
            push_cast; rw [mul_comm]
          rw [if_neg hgate, if_neg hreq, havg]
          refine ⟨ft, r, truck, rfl, rfl, hfind, hgate2, hname, hfresh, rfl, rfl, _, rfl, hrev,
            rfl, ?_, rfl, rfl, rfl⟩
          cases identity <;> rfl


theorem WithIDQuery_UpdateFoodTruckWithReview (ft : String) (avg : ℚ) (id : String)
    (t : JSONFoodTruck) :
    WithIDQuery ft (UpdateFoodTruckWithReview avg id t) = WithIDQuery ft t := rfl

theorem PostReviewsHandler_ok_truck (env : Env) (identity : Option String) (userAgent : String)
    (req : newReviewRequest) (db : Database) (ft : String) (r : ℚ) (truck : JSONFoodTruck)
    (hft : req.FoodTruck = some ft) (hr : req.Rating = some r)
    (hfind : FindOne (WithIDQuery ft) db.foodTrucks = some truck)
    (hok : (PostReviewsHandler env identity userAgent (some req) db).status = 200) :
    FindOne (WithIDQuery ft) (PostReviewsHandler env identity userAgent (some req) db).db.foodTrucks =
      some (UpdateFoodTruckWithReview
        ((truck.AvgRating * truck.Reviews.length + r) / (truck.Reviews.length + 1))
        (env.uuid.getD nilUUID) truck) := by
  obtain ⟨ft2, r2, truck2, hft2, hr2, hfind2, -, -, -, hdb, -⟩ :=
    PostReviewsHandler_ok env identity userAgent req db hok
  rw [hft] at hft2; rw [hr] at hr2
  cases hft2; cases hr2
  rw [hfind] at hfind2; cases hfind2
  rw [hdb, FindOne_UpdateOne_same _ _ (WithIDQuery_UpdateFoodTruckWithReview ft _ _), hfind]
  rfl

theorem validateHours_code (hours : Hours) (l : List (Fin 7)) (code : Nat)
    (h : validateHours hours l = some code) : code = 400 := by
  induction l with
  | nil => simp [validateHours] at h
  | cons i rest ih =>
    simp only [validateHours] at h
    split at h
    · cases h; rfl
    · exact ih h

/-- A run of `PostFoodTrucksHandler` that answers 200 stored a food truck under
the drawn identifier, with average rating 0 and an empty review list. -/
theorem PostFoodTrucksHandler_ok (env : Env) (identity : Option String) (userAgent : String)
    (req : addFoodTruckRequest) (db : Database)
    (hok : (PostFoodTrucksHandler env identity userAgent (some req) db).status = 200) :
    ∃ uuid truck, env.uuid = some uuid ∧
      FindOne (WithIDQuery uuid)
        (PostFoodTrucksHandler env identity userAgent (some req) db).db.foodTrucks = some truck ∧
      truck.ID = uuid ∧ truck.AvgRating = 0 ∧ truck.Reviews = [] ∧
      (PostFoodTrucksHandler env identity userAgent (some req) db).db.foodTrucks =
        db.foodTrucks ++ [truck] ∧
      (∀ d ∈ db.foodTrucks, d.ID ≠ uuid) ∧
      req.Hours = some truck.Hours ∧ truck.Owner = identity.getD "" := by
  unfold PostFoodTrucksHandler at hok ⊢
  simp only at hok ⊢
  split at hok
  · simp at hok
  · rename_i hgate
    split at hok
    · rename_i name address hours photos hN hA hH hP
      split at hok
      · rename_i code hval
        have : code = 400 := validateHours_code _ _ _ hval
        subst this
        simp at hok
      · rename_i hval
        split at hok
        · simp at hok
        · rename_i uuid huuid
          split at hok
          · simp at hok
          · rename_i foodTrucks hins
            obtain ⟨hft, hfresh⟩ := InsertOne_eq_some _ _ _ hins
            rw [if_neg hgate]
            have hdb : ∀ (a b : Response Unit), a.db.foodTrucks = foodTrucks →
                b.db.foodTrucks = foodTrucks →
                (if (identity.getD "" != "") = true then a else b).db.foodTrucks = foodTrucks := by
              intro a b ha hb; split <;> assumption
            rw [hdb _ _ rfl rfl, hft]
            refine ⟨uuid, _, huuid, FindOne_append_fresh _ _ _ ?_ ?_, rfl, rfl, rfl, rfl, hfresh,
              hH, rfl⟩
            · intro d hd
              have := hfresh d hd
              simpa [WithIDQuery] using this
            · simp [WithIDQuery, HasID.id]
    · simp at hok

theorem createdIDs_append_aux (a : ℚ) (n : ℕ) (r : ℚ) :
    (a * n + r) / (n + 1) * ((n + 1 : ℕ) : ℚ) = a * n + r := by
  have h : ((n : ℚ) + 1) ≠ 0 := by positivity
  push_cast
  field_simp

/-- Invariant of a run on one food truck: the review list grows by the created
identifiers and average times count grows by the submitted ratings. -/
theorem submitAll_invariant (ft : String) (subs : List Submission) :
    ∀ (db : Database) (truck : JSONFoodTruck),
      FindOne (WithIDQuery ft) db.foodTrucks = some truck →
      (∀ s ∈ subs, s.request.FoodTruck = some ft) →
      allSucceed db subs →
      ∃ truck2, FindOne (WithIDQuery ft) (submitAll db subs).foodTrucks = some truck2 ∧
        truck2.Reviews = truck.Reviews ++ createdIDs db subs ∧
        truck2.AvgRating * truck2.Reviews.length =
          truck.AvgRating * truck.Reviews.length + (subs.map Submission.rating).sum := by
  induction subs with
  | nil =>
    intro db truck hfind _ _
    exact ⟨truck, hfind, by simp [createdIDs], by simp⟩
  | cons s rest ih =>
    intro db truck hfind htarget hok
    obtain ⟨hs, hrest⟩ := hok
    have hft := htarget s (List.mem_cons_self _ _)
    obtain ⟨ft2, r, truck0, hft2, hr, -, -, -, -, -, -, rev, hbody, -, hid, -⟩ :=
      PostReviewsHandler_ok s.env s.identity s.userAgent s.request db hs
    have hstep := PostReviewsHandler_ok_truck s.env s.identity s.userAgent s.request db ft r truck
      hft hr hfind hs
    obtain ⟨truck2, hfind2, hrev2, havg2⟩ := ih (submit db s).db _ hstep
      (fun x hx => htarget x (List.mem_cons_of_mem _ hx)) hrest
    refine ⟨truck2, hfind2, ?_, ?_⟩
    · have hb : (submit db s).body = some rev := hbody
      simp [hrev2, createdIDs, hb, hid, UpdateFoodTruckWithReview]
    · rw [havg2]
      simp only [UpdateFoodTruckWithReview, List.length_append, List.length_singleton,
        createdIDs_append_aux, List.map_cons, List.sum_cons, Submission.rating, hr, Option.getD_some]
      ring

theorem createdIDs_eq (subs : List Submission) :
    ∀ db : Database, allSucceed db subs →
      createdIDs db subs = subs.map (fun s => s.env.uuid.getD nilUUID) := by
  induction subs with
  | nil => intro db _; rfl
  | cons s rest ih =>
    intro db hok
    obtain ⟨hs, hrest⟩ := hok
    obtain ⟨ft2, r, truck0, -, -, -, -, -, -, -, -, rev, hbody, -, hid, -⟩ :=
      PostReviewsHandler_ok s.env s.identity s.userAgent s.request db hs
    have hb : (submit db s).body = some rev := hbody
    simp [createdIDs, hb, hid, ih _ hrest]

/-- The run of review submissions read over exact rationals: from the database
in which `PostFoodTrucksHandler` has just created a food truck (status 200,
identifier `ft`), `N ≥ 1` submissions on that food truck, each answering 200,
leave as average the sum of the submitted ratings divided by `N` and as review
list the identifiers of the `N` created reviews in submission order.  (The
`float64` code rounds: see the section on review submission in `float64`.) -/
theorem submitAll_average_is_mean (env0 : Env) (identity0 : Option String) (userAgent0 : String)
    (req0 : addFoodTruckRequest) (db : Database) (ft : String) (subs : List Submission)
    (hcreate : (PostFoodTrucksHandler env0 identity0 userAgent0 (some req0) db).status = 200)
    (hid : env0.uuid = some ft)
    (hN : 1 ≤ subs.length)
    (htarget : ∀ s ∈ subs, s.request.FoodTruck = some ft)
    (hok : allSucceed (PostFoodTrucksHandler env0 identity0 userAgent0 (some req0) db).db subs) :
    ∃ truck,
      FindOne (WithIDQuery ft)
        (submitAll (PostFoodTrucksHandler env0 identity0 userAgent0 (some req0) db).db
          subs).foodTrucks = some truck ∧
      truck.AvgRating = (subs.map Submission.rating).sum / subs.length ∧
      truck.Reviews =
        createdIDs (PostFoodTrucksHandler env0 identity0 userAgent0 (some req0) db).db subs ∧
      truck.Reviews.length = subs.length := by
  obtain ⟨uuid, truck0, huuid, hfind0, -, havg0, hrev0, -, -, -, -⟩ :=
    PostFoodTrucksHandler_ok env0 identity0 userAgent0 req0 db hcreate
  rw [hid] at huuid; cases huuid
  obtain ⟨truck, hfind, hrev, havg⟩ := submitAll_invariant ft subs _ truck0 hfind0 htarget hok
  have hlen : truck.Reviews.length = subs.length := by
    rw [hrev, hrev0, createdIDs_eq subs _ hok]; simp
  refine ⟨truck, hfind, ?_, by simpa [hrev0] using hrev, hlen⟩
  rw [havg0, hlen] at havg
  have hpos : (subs.length : ℚ) ≠ 0 := by
    have : 0 < subs.length := hN
    positivity
  rw [eq_div_iff hpos, havg]; simp

/-- The run over exact rationals at a concrete input: a food truck created on
the sample database, then a review with rating 4 by a logged-in user and one
with rating 2 by the scraper. -/
theorem submitAll_average_is_mean_witness :
    ∃ truck,
      FindOne (WithIDQuery "truck-2")
        (submitAll (PostFoodTrucksHandler sampleCreateEnv (some "user-1") "" (some sampleCreate)
          sampleDb).db sampleRun).foodTrucks = some truck ∧
      truck.AvgRating = 3 ∧ truck.Reviews = ["review-1", "review-2"] := by
  obtain ⟨truck, hfind, havg, hrev, -⟩ :=
    submitAll_average_is_mean sampleCreateEnv (some "user-1") "" sampleCreate sampleDb "truck-2"
      sampleRun (by decide) rfl (by decide) (by decide) ⟨by decide, by decide, trivial⟩
  refine ⟨truck, hfind, ?_, ?_⟩
  · rw [havg]; norm_num [sampleRun, Submission.rating, sampleReview]
  · rw [hrev]; decide

/-! ## Review submission: gate and validation -/

theorem InsertOne_of_fresh {α : Type} [HasID α] (doc : α) (c : List α)
    (h : ∀ d ∈ c, HasID.id d ≠ HasID.id doc) : InsertOne doc c = some (c ++ [doc]) := by
  unfold InsertOne
  rw [if_neg]
  simp only [List.any_eq_true, beq_iff_eq, not_exists, not_and]
  exact h

/-- C3 as stated fails: a submission without identity that supplies a non-empty
reviewerName, an existing food-truck id and a rating, sent with a browser
`User-Agent`, is answered 401 and no review is persisted. -/
theorem anonymous_review_unauthorized :
    sampleReview.ReviewerName ≠ "" ∧
    sampleReview.FoodTruck = some "truck-1" ∧
    sampleReview.Rating = some 5 ∧
    (FindOne (WithIDQuery "truck-1") sampleDb.foodTrucks).isSome = true ∧
    (PostReviewsHandler sampleEnv none "Mozilla/5.0" (some sampleReview) sampleDb).status = 401 ∧
    (PostReviewsHandler sampleEnv none "Mozilla/5.0" (some sampleReview) sampleDb).body = none ∧
    (PostReviewsHandler sampleEnv none "Mozilla/5.0" (some sampleReview) sampleDb).db.reviews = [] := by
  refine ⟨by decide, rfl, rfl, rfl, rfl, rfl, rfl⟩

/-- C3, amended: a submission without identity that carries the scraper's
`User-Agent` `MunchCritic/1.0` and supplies a non-empty reviewerName, the id of
an existing food truck and a rating, with a drawn review identifier that no
stored review has yet, is answered 200 with the created review, that review is
appended to the reviews collection, and it has an empty reviewer identity and
the supplied reviewerName. -/
theorem anonymous_scraper_review_succeeds (env : Env) (req : newReviewRequest) (db : Database)
    (ft : String) (r : ℚ) (truck : JSONFoodTruck)
    (hname : req.ReviewerName ≠ "") (hft : req.FoodTruck = some ft) (hr : req.Rating = some r)
    (hfind : FindOne (WithIDQuery ft) db.foodTrucks = some truck)
    (hfresh : ∀ d ∈ db.reviews, d.ID ≠ env.uuid.getD nilUUID) :
    (PostReviewsHandler env none "MunchCritic/1.0" (some req) db).status = 200 ∧
    ∃ review,
      (PostReviewsHandler env none "MunchCritic/1.0" (some req) db).body = some review ∧
      (PostReviewsHandler env none "MunchCritic/1.0" (some req) db).db.reviews =
        db.reviews ++ [review] ∧
      review.Reviewer = "" ∧ review.ReviewerName = req.ReviewerName ∧ review.ReviewerName ≠ "" ∧
      review.FoodTruck = ft ∧ review.Rating = r := by
  have hstatus : (PostReviewsHandler env none "MunchCritic/1.0" (some req) db).status = 200 := by
    unfold PostReviewsHandler
    simp only [hft, hr, hfind, Option.isSome_none, Option.getD_some, Option.isNone_some,
      Bool.not_false, Bool.true_and, bne_self_eq_false, Bool.false_eq_true, if_false,
      beq_iff_eq, hname, decide_False, Bool.or_false, Bool.false_eq_true, if_false,
      Option.getD_none]
    rw [InsertOne_of_fresh _ _ hfresh]
  obtain ⟨ft2, r2, truck2, hft2, hr2, -, -, -, -, -, -, rev, hbody, hrevs, -, hrv, hrn, hrf, hrr⟩ :=
    PostReviewsHandler_ok env none "MunchCritic/1.0" req db hstatus
  rw [hft] at hft2; rw [hr] at hr2; cases hft2; cases hr2
  exact ⟨hstatus, rev, hbody, hrevs, hrv, hrn, hrn ▸ hname, hrf, hrr⟩

/-- C3 amended, at a concrete input. -/
theorem anonymous_scraper_review_succeeds_witness :
    (PostReviewsHandler sampleEnv none "MunchCritic/1.0" (some sampleReview) sampleDb).status = 200 :=
  (anonymous_scraper_review_succeeds sampleEnv sampleReview sampleDb "truck-1" 5 sampleTruck
    (by decide) rfl rfl rfl (by decide)).1

/-- C4 as stated fails: a well-formed submission with neither an identity nor a
reviewerName, sent with a browser `User-Agent`, is answered 401, not 400. -/
theorem missing_reviewer_unauthorized :
    ({ sampleReview with ReviewerName := "" } : newReviewRequest).ReviewerName = "" ∧
    (PostReviewsHandler sampleEnv none "Mozilla/5.0"
      (some { sampleReview with ReviewerName := "" }) sampleDb).status = 401 ∧
    (PostReviewsHandler sampleEnv none "Mozilla/5.0"
      (some { sampleReview with ReviewerName := "" }) sampleDb).status ≠ 400 := by
  refine ⟨rfl, rfl, by decide⟩

/-- C4, amended: for a well-formed submission that passes the entry gate (an
authenticated identity, or the scraper's `User-Agent` `MunchCritic/1.0`), the
answer is 400 whenever the request has neither an identity nor a non-empty
reviewerName, or lacks the food-truck id, or lacks the rating; then the
database is unchanged and no collection was read or written. -/
theorem PostReviewsHandler_validation (env : Env) (identity : Option String)
    (userAgent : String) (req : newReviewRequest) (db : Database)
    (hgate : identity.isSome = true ∨ userAgent = "MunchCritic/1.0")
    (hmissing : (identity = none ∧ req.ReviewerName = "") ∨ req.FoodTruck = none ∨
      req.Rating = none) :
    (PostReviewsHandler env identity userAgent (some req) db).status = 400 ∧
    (PostReviewsHandler env identity userAgent (some req) db).body = none ∧
    (PostReviewsHandler env identity userAgent (some req) db).db = db ∧
    (PostReviewsHandler env identity userAgent (some req) db).trace = [] := by
  have h1 : ¬ ((!identity.isSome && userAgent != "MunchCritic/1.0") = true) := by
    rcases hgate with h | h <;> simp [h]
  have h2 : ((!identity.isSome && req.ReviewerName == "") || req.FoodTruck.isNone ||
      req.Rating.isNone) = true := by
    rcases hmissing with ⟨h, hn⟩ | h | h
    · simp [h, hn]
    · simp [h]
    · simp [h]
  unfold PostReviewsHandler
  simp only [if_neg h1, if_pos h2, and_self]

/-- C4 amended, at a concrete input: a logged-in user omits the rating. -/
theorem PostReviewsHandler_validation_witness :
    (PostReviewsHandler sampleEnv (some "user-1") "" (some { sampleReview with Rating := none })
      sampleDb).status = 400 :=
  (PostReviewsHandler_validation sampleEnv (some "user-1") ""
    { sampleReview with Rating := none } sampleDb (Or.inl rfl) (Or.inr (Or.inr rfl))).1

/-! ## Hours validation on creation -/

theorem validateHours_eq_none (hours : Hours) (l : List (Fin 7)) :
    validateHours hours l = none ↔
      ∀ i ∈ l, MatchString hoursPattern (hours i 0) = true ∧
        MatchString hoursPattern (hours i 1) = true := by
  induction l with
  | nil => simp [validateHours]
  | cons i rest ih =>
    simp only [validateHours, List.mem_cons, forall_eq_or_imp]
    split
    · rename_i h
      simp only [Bool.or_eq_true, Bool.not_eq_true'] at h
      constructor
      · intro h2; cases h2
      · rintro ⟨⟨h0, h1⟩, -⟩
        rcases h with h | h <;> simp_all
    · rename_i h
      simp only [Bool.or_eq_true, Bool.not_eq_true', not_or, Bool.not_eq_false] at h
      rw [ih]
      exact ⟨fun h2 => ⟨h, h2⟩, fun h2 => h2.2⟩

theorem validateHours_all (hours : Hours) :
    validateHours hours (List.finRange 7) = none ↔ ∀ (i : Fin 7) (j : Fin 2), IsHHMM (hours i j) := by
  rw [validateHours_eq_none]
  simp only [List.mem_finRange, true_implies, MatchString_hoursPattern]
  constructor
  · intro h i j
    have hj : j = 0 ∨ j = 1 := by omega
    rcases hj with rfl | rfl
    · exact (h i).1
    · exact (h i).2
  · intro h i
    exact ⟨h i 0, h i 1⟩

theorem validateHours_invalid (hours : Hours) :
    validateHours hours (List.finRange 7) = some 400 ↔ ∃ (i : Fin 7) (j : Fin 2), ¬ IsHHMM (hours i j) := by
  have h := validateHours_all hours
  constructor
  · intro h2
    by_contra hne
    push_neg at hne
    rw [h.2 hne] at h2
    cases h2
  · intro h2
    rcases hv : validateHours hours (List.finRange 7) with _ | code
    · obtain ⟨i, j, hij⟩ := h2
      exact absurd (h.1 hv i j) hij
    · rw [validateHours_code _ _ _ hv]

/-- C5: for a creation request that passes the entry gate and has name,
address, hours and photos, `PostFoodTrucksHandler` answers 400, leaving the
database as it was and touching no collection, if and only if at least one of
the 14 strings of the hours table is not two ASCII digits, a colon, two ASCII
digits.  When all 14 have that shape, the validation passes: the answer is not
400, and with a drawn identifier that no stored food truck has the answer is
200 and the food truck is stored with that hours table.  No range check:
`99:99` has the shape. -/
theorem PostFoodTrucksHandler_hours (env : Env) (identity : Option String) (userAgent : String)
    (req : addFoodTruckRequest) (db : Database)
    (name address : String) (hours : Hours) (photos : List String)
    (hgate : identity.isSome = true ∨ userAgent = "MunchCritic/1.0")
    (hname : req.Name = some name) (haddress : req.Address = some address)
    (hhours : req.Hours = some hours) (hphotos : req.Photos = some photos) :
    (((PostFoodTrucksHandler env identity userAgent (some req) db).status = 400 ∧
        (PostFoodTrucksHandler env identity userAgent (some req) db).db = db ∧
        (PostFoodTrucksHandler env identity userAgent (some req) db).trace = []) ↔
      ∃ (i : Fin 7) (j : Fin 2), ¬ IsHHMM (hours i j)) ∧
    ((∀ (i : Fin 7) (j : Fin 2), IsHHMM (hours i j)) →
      (PostFoodTrucksHandler env identity userAgent (some req) db).status ≠ 400 ∧
      ∀ uuid, env.uuid = some uuid → (∀ d ∈ db.foodTrucks, d.ID ≠ uuid) →
        (PostFoodTrucksHandler env identity userAgent (some req) db).status = 200 ∧
        ∃ truck, FindOne (WithIDQuery uuid)
            (PostFoodTrucksHandler env identity userAgent (some req) db).db.foodTrucks = some truck ∧
          truck.Hours = hours) ∧
    IsHHMM "99:99" := by
  have h1 : ¬ ((!identity.isSome && userAgent != "MunchCritic/1.0") = true) := by
    rcases hgate with h | h <;> simp [h]
  have hbad : (∃ (i : Fin 7) (j : Fin 2), ¬ IsHHMM (hours i j)) →
      (PostFoodTrucksHandler env identity userAgent (some req) db).status = 400 ∧
        (PostFoodTrucksHandler env identity userAgent (some req) db).db = db ∧
        (PostFoodTrucksHandler env identity userAgent (some req) db).trace = [] := by
    intro h
    have hv := (validateHours_invalid hours).2 h
    unfold PostFoodTrucksHandler
    simp only [if_neg h1, hname, haddress, hhours, hphotos, hv, and_self]
  have hgood : (∀ (i : Fin 7) (j : Fin 2), IsHHMM (hours i j)) →
      (PostFoodTrucksHandler env identity userAgent (some req) db).status ≠ 400 ∧
      ∀ uuid, env.uuid = some uuid → (∀ d ∈ db.foodTrucks, d.ID ≠ uuid) →
        (PostFoodTrucksHandler env identity userAgent (some req) db).status = 200 ∧
        ∃ truck, FindOne (WithIDQuery uuid)
            (PostFoodTrucksHandler env identity userAgent (some req) db).db.foodTrucks = some truck ∧
          truck.Hours = hours := by
    intro h
    have hv := (validateHours_all hours).2 h
    constructor
    · unfold PostFoodTrucksHandler
      simp only [if_neg h1, hname, haddress, hhours, hphotos, hv]
      split
      · simp
      · split
        · simp
        · split <;> simp
    · intro uuid huuid hfresh
      have hins := InsertOne_of_fresh
        ({ ID := uuid, Name := name, Address := address, Location := req.Location,
           Owner := identity.getD "", Status := false, AvgRating := 0, Hours := hours,
           Reviews := [], Photos := photos, Website := req.Website,
           PhoneNumber := req.PhoneNumber, Description := req.Description,
           Tags := req.Tags.getD [] } : JSONFoodTruck) db.foodTrucks hfresh
      have hstatus : (PostFoodTrucksHandler env identity userAgent (some req) db).status = 200 := by
        unfold PostFoodTrucksHandler
        simp only [if_neg h1, hname, haddress, hhours, hphotos, hv, huuid, hins]
        split <;> rfl
      refine ⟨hstatus, ?_⟩
      obtain ⟨uuid2, truck, huuid2, hfind, -, -, -, -, -, hH, -⟩ :=
        PostFoodTrucksHandler_ok env identity userAgent req db hstatus
      rw [huuid] at huuid2; cases huuid2
      refine ⟨truck, hfind, ?_⟩
      rw [hhours] at hH
      exact (Option.some.inj hH).symm
  refine ⟨⟨?_, hbad⟩, hgood, ⟨'9', '9', '9', '9', rfl, rfl, rfl, rfl, rfl⟩⟩
  rintro ⟨h400, -, -⟩
  by_contra hne
  push_neg at hne
  exact (hgood hne).1 h400

/-- C5, at a concrete input: a table of fourteen `99:99` is accepted. -/
theorem PostFoodTrucksHandler_hours_witness :
    (PostFoodTrucksHandler sampleCreateEnv (some "user-1") ""
      (some { sampleCreate with Hours := some (fun _ _ => "99:99") }) sampleDb).status = 200 :=
  (((PostFoodTrucksHandler_hours sampleCreateEnv (some "user-1") ""
      { sampleCreate with Hours := some (fun _ _ => "99:99") } sampleDb
      "Burgers" "2 Side St" (fun _ _ => "99:99") [] (Or.inl rfl) rfl rfl rfl rfl).2.1
    (fun _ _ => ⟨'9', '9', '9', '9', rfl, rfl, rfl, rfl, rfl⟩)).2 "truck-2" rfl (by decide)).1

/-! ## Food-truck update -/

theorem validateHours_mismatch (hours : Hours) :
    validateHours hours (List.finRange 7) = some 400 ↔
      ∃ (i : Fin 7) (j : Fin 2), MatchString hoursPattern (hours i j) = false := by
  rw [validateHours_invalid]
  simp only [← MatchString_hoursPattern, Bool.not_eq_true]

/-- C6 as stated fails: an authorized update whose hours table has a non-empty
string that does not match the pattern, but an empty first open string, is
answered 200 and the stored food truck is rewritten. -/
theorem update_bad_hours_accepted :
    sampleBadHours 1 0 ≠ "" ∧
    MatchString hoursPattern (sampleBadHours 1 0) = false ∧
    (PutFoodTrucksHandler (some "truck-1") (some "user-1") ""
      (some { sampleUpdate with Hours := sampleBadHours }) sampleDb).status = 200 ∧
    (FindOne (WithIDQuery "truck-1") sampleDb.foodTrucks).map JSONFoodTruck.Name = some "Tacos" ∧
    (FindOne (WithIDQuery "truck-1")
      (PutFoodTrucksHandler (some "truck-1") (some "user-1") ""
        (some { sampleUpdate with Hours := sampleBadHours }) sampleDb).db.foodTrucks).map
      JSONFoodTruck.Name = some "Renamed" := by
  refine ⟨by decide, by decide, by decide, by decide, by decide⟩

/-- C6, amended: an authorized update request whose hours table has a non-empty
first open string (the handler's test for a table that is present) and contains
at least one string that does not match the pattern is answered 400; the
database is unchanged and no collection was touched. -/
theorem PutFoodTrucksHandler_bad_hours (foodTruckID : String) (identity : Option String)
    (userAgent : String) (req : updateFoodTruckRequest) (db : Database)
    (hgate : identity.isSome = true ∨ userAgent = "MunchCritic/1.0")
    (hpresent : req.Hours 0 0 ≠ "")
    (hbad : ∃ (i : Fin 7) (j : Fin 2), MatchString hoursPattern (req.Hours i j) = false) :
    (PutFoodTrucksHandler (some foodTruckID) identity userAgent (some req) db).status = 400 ∧
    (PutFoodTrucksHandler (some foodTruckID) identity userAgent (some req) db).db = db ∧
    (PutFoodTrucksHandler (some foodTruckID) identity userAgent (some req) db).trace = [] := by
  have h1 : ¬ ((!identity.isSome && userAgent != "MunchCritic/1.0") = true) := by
    rcases hgate with h | h <;> simp [h]
  have hv := (validateHours_mismatch req.Hours).2 hbad
  have hp : (req.Hours 0 0 != "") = true := by simpa using hpresent
  have hu : updateData req = .error 400 := by
    unfold updateData
    simp only [hp, if_true, hv]
  unfold PutFoodTrucksHandler
  simp only [if_neg h1, hu, and_self]

/-- C6 amended, at a concrete input: the first open string is `9am`. -/
theorem PutFoodTrucksHandler_bad_hours_witness :
    (PutFoodTrucksHandler (some "truck-1") (some "user-1") ""
      (some { sampleUpdate with Hours := fun _ _ => "9am" }) sampleDb).status = 400 :=
  (PutFoodTrucksHandler_bad_hours "truck-1" (some "user-1") ""
    { sampleUpdate with Hours := fun _ _ => "9am" } sampleDb (Or.inl rfl) (by decide)
    ⟨0, 0, by decide⟩).1

/-- C7 fails on the code for the field location: an accepted update whose body
has no location (so the field holds its zero value) still puts `location` into
the `$set` document, because `len` of the array type `[2]float64` is never 0,
and the stored location is overwritten with the zero pair. -/
theorem update_overwrites_location :
    sampleUpdate.Location = (0, 0) ∧
    (PutFoodTrucksHandler (some "truck-1") (some "user-1") "" (some sampleUpdate) sampleDb).status
      = 200 ∧
    updateData sampleUpdate =
      .ok [("name", .str "Renamed"), ("location", .location (0, 0))] ∧
    (FindOne (WithIDQuery "truck-1") sampleDb.foodTrucks).map JSONFoodTruck.Location
      = some (1, 2) ∧
    (FindOne (WithIDQuery "truck-1")
      (PutFoodTrucksHandler (some "truck-1") (some "user-1") "" (some sampleUpdate)
        sampleDb).db.foodTrucks).map JSONFoodTruck.Location = some (0, 0) := by
  refine ⟨rfl, by decide, rfl, rfl, rfl⟩

theorem mem_keys_ite (c : Prop) [Decidable c] (d : BsonD) (a k : String) (v : BsonValue) :
    k ∈ (if c then d ++ [(a, v)] else d).map Prod.fst ↔ k ∈ d.map Prod.fst ∨ (c ∧ k = a) := by
  by_cases hc : c <;> simp [hc]

/-- The keys of the `$set` document of an accepted update: `location` always,
every other updatable field exactly when the request holds a non-zero value
for it, and never `hours` or `reviews`. -/
theorem updateData_keys (req : updateFoodTruckRequest) (d : BsonD)
    (h : updateData req = .ok d) (k : String) :
    k ∈ d.map Prod.fst ↔
      (k = "name" ∧ req.Name ≠ "") ∨ (k = "address" ∧ req.Address ≠ "") ∨ k = "location" ∨
      (k = "owner" ∧ req.Owner ≠ "") ∨ (k = "status" ∧ req.Status = true) ∨
      (k = "avgRating" ∧ req.AvgRating ≠ 0) ∨ (k = "photos" ∧ req.Photos ≠ none) ∨
      (k = "website" ∧ req.Website ≠ "") ∨ (k = "phoneNumber" ∧ req.PhoneNumber ≠ "") ∨
      (k = "description" ∧ req.Description ≠ "") ∨ (k = "tags" ∧ req.Tags.getD [] ≠ []) := by
  unfold updateData at h
  simp only at h
  split at h
  · cases h
  · simp only [Except.ok.injEq] at h
    subst h
    have e1 : ((2 : ℕ) != 0) = true := by decide
    have e2 : (req.Status != false) = true ↔ req.Status = true := by cases req.Status <;> simp
    have e3 : ((req.Tags.getD []).length != 0) = true ↔ req.Tags.getD [] ≠ [] := by
      simp [List.length_eq_zero]
    rcases hP : req.Photos with _ | photos
    · simp only [mem_keys_ite, List.map_nil, List.not_mem_nil, false_or, lenLocation, or_assoc,
        e1, e2, e3, bne_iff_ne, true_and, ne_eq, not_true_eq_false, and_false,
        and_comm (b := k = _), and_true]
    · simp only [mem_keys_ite, List.map_nil, List.not_mem_nil, false_or, lenLocation, or_assoc,
        e1, e2, e3, bne_iff_ne, true_and, ne_eq, and_comm (b := k = _),
        List.map_append, List.mem_append, List.map_cons, List.mem_singleton, List.mem_cons,
        List.not_mem_nil, or_false, reduceCtorEq, not_false_eq_true, and_true]

/-! ## Review submission: where the identifier is attached -/

theorem WithIDQuery_PushReview (u : String) (id : String) (x : JSONUser) :
    WithIDQuery u (PushReview id x) = WithIDQuery u x := rfl

theorem WithIDQuery_ne {α : Type} [HasID α] (u v : String) (h : v ≠ u) (x : α)
    (hx : WithIDQuery u x = true) : WithIDQuery v x = false := by
  simp only [WithIDQuery, beq_iff_eq, beq_eq_false_iff_ne, ne_eq] at hx ⊢
  rw [hx]; exact fun e => h e.symm

/-- C8: for a submission that `PostReviewsHandler` answers 200 with the created
review `review`:
* made by the identity `u`, the user stored under `u` gets `review.ID` appended
  to the end of the review list, and the user stored under any other
  identifier is as before;
* made without identity, the users collection is as before;
* in both cases the food truck stored under the target id gets `review.ID`
  appended to the end of its review list;
* hence, when a second submission on the same food truck without identity is
  answered 200 right after one by `u`, the food truck lists both new
  identifiers and the user `u` only the first. -/
theorem PostReviewsHandler_attaches (env : Env) (identity : Option String) (userAgent : String)
    (req : newReviewRequest) (db : Database) (ft : String)
    (hft : req.FoodTruck = some ft)
    (hok : (PostReviewsHandler env identity userAgent (some req) db).status = 200) :
    ∃ review, (PostReviewsHandler env identity userAgent (some req) db).body = some review ∧
      (∀ u, identity = some u →
        FindOne (WithIDQuery u) (PostReviewsHandler env identity userAgent (some req) db).db.users =
          (FindOne (WithIDQuery u) db.users).map
            (fun x => { x with Reviews := x.Reviews ++ [review.ID] }) ∧
        ∀ v, v ≠ u →
          FindOne (WithIDQuery v)
            (PostReviewsHandler env identity userAgent (some req) db).db.users =
          FindOne (WithIDQuery v) db.users) ∧
      (identity = none →
        (PostReviewsHandler env identity userAgent (some req) db).db.users = db.users) ∧
      FindOne (WithIDQuery ft)
          (PostReviewsHandler env identity userAgent (some req) db).db.foodTrucks =
        (FindOne (WithIDQuery ft) db.foodTrucks).map
          (fun t => { t with
            AvgRating := (t.AvgRating * t.Reviews.length + review.Rating) / (t.Reviews.length + 1)
            Reviews := t.Reviews ++ [review.ID] }) ∧
      ∀ (env2 : Env) (userAgent2 : String) (req2 : newReviewRequest) (u : String),
        identity = some u → req2.FoodTruck = some ft →
        (PostReviewsHandler env2 none userAgent2 (some req2)
          (PostReviewsHandler env identity userAgent (some req) db).db).status = 200 →
        ∃ review2,
          (PostReviewsHandler env2 none userAgent2 (some req2)
            (PostReviewsHandler env identity userAgent (some req) db).db).body = some review2 ∧
          (FindOne (WithIDQuery ft)
            (PostReviewsHandler env2 none userAgent2 (some req2)
              (PostReviewsHandler env identity userAgent (some req) db).db).db.foodTrucks).map
              JSONFoodTruck.Reviews =
            (FindOne (WithIDQuery ft) db.foodTrucks).map
              (fun t => t.Reviews ++ [review.ID, review2.ID]) ∧
          (FindOne (WithIDQuery u)
            (PostReviewsHandler env2 none userAgent2 (some req2)
              (PostReviewsHandler env identity userAgent (some req) db).db).db.users).map
              JSONUser.Reviews =
            (FindOne (WithIDQuery u) db.users).map (fun x => x.Reviews ++ [review.ID]) := by
  obtain ⟨ft1, r, truck, hft1, hr, hfind, -, -, -, hdbT, hdbU, rev, hbody, -, hid, -, -, -, hrr⟩ :=
    PostReviewsHandler_ok env identity userAgent req db hok
  rw [hft] at hft1; cases hft1
  have hT : FindOne (WithIDQuery ft)
      (PostReviewsHandler env identity userAgent (some req) db).db.foodTrucks =
      (FindOne (WithIDQuery ft) db.foodTrucks).map
        (fun t => { t with
          AvgRating := (t.AvgRating * t.Reviews.length + rev.Rating) / (t.Reviews.length + 1)
          Reviews := t.Reviews ++ [rev.ID] }) := by
    rw [hdbT, FindOne_UpdateOne_same _ _ (WithIDQuery_UpdateFoodTruckWithReview ft _ _), hfind,
      hid, hrr]
    rfl
  have hU : ∀ u, identity = some u →
      FindOne (WithIDQuery u) (PostReviewsHandler env identity userAgent (some req) db).db.users =
        (FindOne (WithIDQuery u) db.users).map
          (fun x => { x with Reviews := x.Reviews ++ [rev.ID] }) := by
    intro u hu
    subst hu
    rw [hdbU, hid]
    simp only [Option.isSome_some, if_true, Option.getD_some]
    rw [FindOne_UpdateOne_same _ _ (WithIDQuery_PushReview u _)]
    rfl
  refine ⟨rev, hbody, ?_, ?_, hT, ?_⟩
  · intro u hu
    refine ⟨hU u hu, ?_⟩
    intro v hv
    subst hu
    rw [hdbU]
    simp only [Option.isSome_some, if_true, Option.getD_some]
    exact FindOne_UpdateOne_other _ _ _ (WithIDQuery_PushReview v _) (WithIDQuery_ne u v hv) _
  · intro hnone
    subst hnone
    rw [hdbU]; rfl
  · intro env2 userAgent2 req2 u hu hft2 hok2
    obtain ⟨ft3, r2, truck2, hft3, hr2, hfind2, -, -, -, hdbT2, hdbU2, rev2, hbody2, -, hid2, -⟩ :=
      PostReviewsHandler_ok env2 none userAgent2 req2 _ hok2
    rw [hft2] at hft3; cases hft3
    refine ⟨rev2, hbody2, ?_, ?_⟩
    · rw [hdbT2, FindOne_UpdateOne_same _ _ (WithIDQuery_UpdateFoodTruckWithReview ft _ _), hT, hid2]
      cases FindOne (WithIDQuery ft) db.foodTrucks <;> simp [UpdateFoodTruckWithReview]
    · rw [hdbU2]
      simp only [Option.isSome_none, Bool.false_eq_true, if_false]
      rw [hU u hu]
      cases FindOne (WithIDQuery u) db.users <;> simp

/-- C8, at a concrete input: a review by the logged-in `user-1` on the sample
database. -/
theorem PostReviewsHandler_attaches_witness :
    ∃ review,
      (PostReviewsHandler sampleEnv (some "user-1") "" (some sampleReview) sampleDb).body =
        some review ∧
      FindOne (WithIDQuery "user-1")
          (PostReviewsHandler sampleEnv (some "user-1") "" (some sampleReview) sampleDb).db.users =
        (FindOne (WithIDQuery "user-1") sampleDb.users).map
          (fun x => { x with Reviews := x.Reviews ++ [review.ID] }) := by
  obtain ⟨review, hbody, hU, -⟩ :=
    PostReviewsHandler_attaches sampleEnv (some "user-1") "" sampleReview sampleDb "truck-1" rfl
      (by decide)
  exact ⟨review, hbody, (hU "user-1" rfl).1⟩

/-! ## Registration and login -/

theorem InsertOneUser_eq_none (doc : JSONUser) (c : List JSONUser) :
    InsertOneUser doc c = none ↔ ∃ d ∈ c, d.ID = doc.ID ∨ d.Email = doc.Email := by
  unfold InsertOneUser
  split
  · rename_i h
    simp only [List.any_eq_true, Bool.or_eq_true, beq_iff_eq] at h
    simp [h]
  · rename_i h
    simp only [List.any_eq_true, Bool.or_eq_true, beq_iff_eq] at h
    simp only [reduceCtorEq, false_iff]
    exact h

theorem InsertOneUser_of_fresh (doc : JSONUser) (c : List JSONUser)
    (h : ∀ d ∈ c, d.ID ≠ doc.ID ∧ d.Email ≠ doc.Email) :
    InsertOneUser doc c = some (c ++ [doc]) := by
  unfold InsertOneUser
  rw [if_neg]
  simp only [List.any_eq_true, Bool.or_eq_true, beq_iff_eq, not_exists, not_and, not_or]
  exact h

/-- C9 as stated fails for the identifier that the handler draws: with all five
fields present and an email that no stored user has, the answer is 500 when
`uuid.NewRandom` returns an error and 409 when the drawn identifier is already
stored, not 200; and with a registered email the answer is 500, not 409, when
`uuid.NewRandom` returns an error. -/
theorem register_identifier_failures :
    sampleRegister.Email = some "tester@example.com" ∧
    (∀ u ∈ sampleDb.users, u.Email ≠ "tester@example.com") ∧
    (PostRegisterHandler sampleBcrypt 7 { uuid := none, now := 0 } (some sampleRegister)
      sampleDb).status = 500 ∧
    (∃ u ∈ sampleDb.users, u.ID = "user-1") ∧
    (PostRegisterHandler sampleBcrypt 7 { uuid := some "user-1", now := 0 } (some sampleRegister)
      sampleDb).status = 409 ∧
    (∃ u ∈ sampleDb.users, u.Email = "a@x.com") ∧
    (PostRegisterHandler sampleBcrypt 7 { uuid := none, now := 0 }
      (some { sampleRegister with Email := some "a@x.com" }) sampleDb).status = 500 := by
  refine ⟨rfl, by decide, by decide, by decide, by decide, by decide, by decide⟩

/-- C9, amended: for a registration request that decodes,
(i) if any of firstName, lastName, email, password, dateOfBirth is absent the
answer is 400 and the database is unchanged;
(ii) if all five are present, `uuid.NewRandom` returned an identifier and a
stored user already has that email, the answer is 409 and the database is
unchanged;
(iii) if all five are present, `uuid.NewRandom` returned an identifier that no
stored user has and no stored user has that email, the answer is 200 without a
body and the users collection gains exactly one user, appended, that carries
the drawn identifier, the submitted names, email and date of birth, and empty
favorites, reviews and owned-food-truck lists, and whose password hash is the
hash that the hashing primitive returned for the password, when it returned
one; the other collections are unchanged. -/
theorem PostRegisterHandler_cases (bcrypt : Bcrypt) (salt : Nat) (env : Env)
    (req : registerRequest) (db : Database) :
    ((req.NameFirst = none ∨ req.NameLast = none ∨ req.Email = none ∨ req.Password = none ∨
        req.DateOfBirth = none) →
      (PostRegisterHandler bcrypt salt env (some req) db).status = 400 ∧
      (PostRegisterHandler bcrypt salt env (some req) db).db = db) ∧
    (∀ nameFirst nameLast email password dateOfBirth uuid,
      req.NameFirst = some nameFirst → req.NameLast = some nameLast → req.Email = some email →
      req.Password = some password → req.DateOfBirth = some dateOfBirth →
      env.uuid = some uuid →
      ((∃ u ∈ db.users, u.Email = email) →
        (PostRegisterHandler bcrypt salt env (some req) db).status = 409 ∧
        (PostRegisterHandler bcrypt salt env (some req) db).db = db) ∧
      ((∀ u ∈ db.users, u.Email ≠ email) → (∀ u ∈ db.users, u.ID ≠ uuid) →
        (PostRegisterHandler bcrypt salt env (some req) db).status = 200 ∧
        (PostRegisterHandler bcrypt salt env (some req) db).body = none ∧
        (∃ user, (PostRegisterHandler bcrypt salt env (some req) db).db.users =
            db.users ++ [user] ∧
          user.ID = uuid ∧ user.NameFirst = nameFirst ∧ user.NameLast = nameLast ∧
          user.Email = email ∧ user.DateOfBirth = dateOfBirth ∧ user.Favorites = [] ∧
          user.Reviews = [] ∧ user.OwnedFoodTrucks = [] ∧
          ∀ hash, bcrypt.GenerateFromPassword password salt = some hash →
            user.PasswordHash = hash) ∧
        (PostRegisterHandler bcrypt salt env (some req) db).db.foodTrucks = db.foodTrucks ∧
        (PostRegisterHandler bcrypt salt env (some req) db).db.reviews = db.reviews)) := by
  refine ⟨?_, ?_⟩
  · intro h
    unfold PostRegisterHandler
    simp only
    split
    · rename_i h1 h2 h3 h4 h5
      rcases h with h | h | h | h | h <;> simp_all
    · exact ⟨rfl, rfl⟩
  · intro nameFirst nameLast email password dateOfBirth uuid h1 h2 h3 h4 h5 huuid
    refine ⟨?_, ?_⟩
    · rintro ⟨u, hu, hemail⟩
      have hins : InsertOneUser
          { ID := uuid, PasswordHash := (bcrypt.GenerateFromPassword password salt).getD [],
            NameFirst := nameFirst, NameLast := nameLast, Email := email,
            DateOfBirth := dateOfBirth, Favorites := [], Reviews := [],
            OwnedFoodTrucks := [] } db.users = none :=
        (InsertOneUser_eq_none _ _).2 ⟨u, hu, Or.inr hemail⟩
      unfold PostRegisterHandler
      simp only [h1, h2, h3, h4, h5, huuid, hins, and_self]
    · intro hemail hid
      have hins := InsertOneUser_of_fresh
          { ID := uuid, PasswordHash := (bcrypt.GenerateFromPassword password salt).getD [],
            NameFirst := nameFirst, NameLast := nameLast, Email := email,
            DateOfBirth := dateOfBirth, Favorites := [], Reviews := [],
            OwnedFoodTrucks := [] } db.users (fun d hd => ⟨hid d hd, hemail d hd⟩)
      unfold PostRegisterHandler
      simp only [h1, h2, h3, h4, h5, huuid, hins]
      refine ⟨trivial, trivial, ⟨_, rfl, rfl, rfl, rfl, rfl, rfl, rfl, rfl, rfl, ?_⟩, trivial, trivial⟩
      intro hash hh
      simp only [hh, Option.getD_some]

/-- C9 amended, at a concrete input: the request of `TestValidRegister` on an
empty database. -/
theorem PostRegisterHandler_cases_witness :
    (PostRegisterHandler sampleBcrypt 7 { uuid := some "user-2", now := 0 } (some sampleRegister)
      { users := [], foodTrucks := [], reviews := [] }).status = 200 :=
  ((PostRegisterHandler_cases sampleBcrypt 7 { uuid := some "user-2", now := 0 } sampleRegister
      { users := [], foodTrucks := [], reviews := [] }).2
    "some" "tester" "tester@example.com" "password123" (-22014000 * 1000000000) "user-2"
    rfl rfl rfl rfl rfl rfl).2 (by simp) (by simp) |>.1

theorem FindOne_eq_none {α : Type} (p : α → Bool) (c : List α) :
    FindOne p c = none ↔ ∀ d ∈ c, p d = false := by
  induction c with
  | nil => simp [FindOne]
  | cons x xs ih =>
    by_cases hx : p x = true
    · simp [FindOne, hx]
    · simp [FindOne, hx, ih]

/-- C10: for a login request with email and password, if no stored user has
that email, or the stored user that the lookup by email finds has a password
hash that does not verify against the submitted password, the answer is 401
without a body (no token) and the database is unchanged, whatever the signer;
in particular on an empty users collection the answer is 401. -/
theorem PostLoginHandler_invalid (bcrypt : Bcrypt) (sign : Signer) (env : Env)
    (req : loginRequest) (db : Database) (email password : String)
    (hemail : req.Email = some email) (hpassword : req.Password = some password)
    (hbad : (∀ u ∈ db.users, u.Email ≠ email) ∨
      ∃ u, FindOne (UserWithEmail email) db.users = some u ∧
        bcrypt.CompareHashAndPassword u.PasswordHash password = false) :
    ((PostLoginHandler bcrypt sign env (some req) db).status = 401 ∧
      (PostLoginHandler bcrypt sign env (some req) db).body = none ∧
      (PostLoginHandler bcrypt sign env (some req) db).db = db) ∧
    ∀ db0 : Database, db0.users = [] →
      (PostLoginHandler bcrypt sign env (some req) db0).status = 401 ∧
      (PostLoginHandler bcrypt sign env (some req) db0).body = none := by
  have hnone : ∀ d : Database, (∀ u ∈ d.users, u.Email ≠ email) →
      (PostLoginHandler bcrypt sign env (some req) d).status = 401 ∧
      (PostLoginHandler bcrypt sign env (some req) d).body = none ∧
      (PostLoginHandler bcrypt sign env (some req) d).db = d := by
    intro d hd
    have hfind : FindOne (UserWithEmail email) d.users = none := by
      rw [FindOne_eq_none]
      intro u hu
      simpa [UserWithEmail] using hd u hu
    unfold PostLoginHandler
    simp only [hemail, hpassword, hfind, and_self]
  refine ⟨?_, ?_⟩
  · rcases hbad with h | ⟨u, hfind, hcmp⟩
    · exact hnone db h
    · unfold PostLoginHandler
      simp only [hemail, hpassword, hfind, hcmp, Bool.not_false, if_true, and_self]
  · intro db0 h0
    have := hnone db0 (by rw [h0]; intro u hu; cases hu)
    exact ⟨this.1, this.2.1⟩

/-- C10, at a concrete input: the request of `TestInvalidLogin` on an empty
database. -/
theorem PostLoginHandler_invalid_witness :
    (PostLoginHandler sampleBcrypt sampleSigner sampleEnv (some sampleLogin)
      { users := [], foodTrucks := [], reviews := [] }).status = 401 :=
  (PostLoginHandler_invalid sampleBcrypt sampleSigner sampleEnv sampleLogin
    { users := [], foodTrucks := [], reviews := [] } "invalid@email.com" "notMyPassword"
    rfl rfl (Or.inl (by simp))).1.1

/-! ## Reading reviews -/

theorem CursorAll_getD {α : Type} (cur : List α) :
    (CursorAll cur).getD [] = cur := by
  unfold CursorAll
  cases cur <;> simp

theorem FindOne_isSome {α : Type} (p : α → Bool) (c : List α) :
    (FindOne p c).isSome = true ↔ ∃ d ∈ c, p d = true := by
  induction c with
  | nil => simp [FindOne]
  | cons x xs ih =>
    by_cases hx : p x = true
    · simp [FindOne, hx]
    · simp [FindOne, hx, ih]

/-- C12: for every database and food-truck id, `GetReviewsOfFoodTruckHandler`
answers 404 if and only if no stored food truck has that id.  When the lookup
finds the food truck, the answer is 200 with a list (the empty list when
nothing matches, never an absent body) that holds exactly the stored reviews
whose identifier occurs in that food truck's review-identifier list, in
collection order; the `FoodTruck` field of the reviews plays no part: rewriting
that field of every stored review in any way leaves status and selection the
same. -/
theorem GetReviewsOfFoodTruckHandler_spec (foodTruckID : String) (db : Database) :
    ((GetReviewsOfFoodTruckHandler (some foodTruckID) db).status = 404 ↔
      ∀ t ∈ db.foodTrucks, t.ID ≠ foodTruckID) ∧
    (∀ truck, FindOne (WithIDQuery foodTruckID) db.foodTrucks = some truck →
      (GetReviewsOfFoodTruckHandler (some foodTruckID) db).status = 200 ∧
      (GetReviewsOfFoodTruckHandler (some foodTruckID) db).body =
        some (db.reviews.filter (fun r => decide (r.ID ∈ truck.Reviews))) ∧
      (∀ r, r ∈ db.reviews.filter (fun r => decide (r.ID ∈ truck.Reviews)) ↔
        r ∈ db.reviews ∧ r.ID ∈ truck.Reviews) ∧
      ((∀ r ∈ db.reviews, r.ID ∉ truck.Reviews) →
        (GetReviewsOfFoodTruckHandler (some foodTruckID) db).body = some []) ∧
      ∀ g : JSONReview → String,
        (GetReviewsOfFoodTruckHandler (some foodTruckID)
          { db with reviews := db.reviews.map (fun r => { r with FoodTruck := g r }) }).status
          = 200 ∧
        (GetReviewsOfFoodTruckHandler (some foodTruckID)
          { db with reviews := db.reviews.map (fun r => { r with FoodTruck := g r }) }).body
          = some ((db.reviews.filter (fun r => decide (r.ID ∈ truck.Reviews))).map
              (fun r => { r with FoodTruck := g r }))) := by
  have hbody : ∀ (d : Database) (truck : JSONFoodTruck),
      FindOne (WithIDQuery foodTruckID) d.foodTrucks = some truck →
      (GetReviewsOfFoodTruckHandler (some foodTruckID) d).status = 200 ∧
      (GetReviewsOfFoodTruckHandler (some foodTruckID) d).body =
        some (d.reviews.filter (fun r => decide (r.ID ∈ truck.Reviews))) := by
    intro d truck hfind
    unfold GetReviewsOfFoodTruckHandler
    simp only [hfind, CursorAll_getD, Find, true_and]
    congr 1
    apply List.filter_congr
    intro r _
    simp [WithIDsQuery, HasID.id]
  refine ⟨?_, ?_⟩
  · constructor
    · intro h
      have hnone : FindOne (WithIDQuery foodTruckID) db.foodTrucks = none := by
        rcases hf : FindOne (WithIDQuery foodTruckID) db.foodTrucks with _ | truck
        · rfl
        · have := (hbody db truck hf).1
          rw [h] at this
          cases this
      intro t ht
      have := (FindOne_eq_none _ _).1 hnone t ht
      simpa [WithIDQuery, HasID.id] using this
    · intro h
      have hnone : FindOne (WithIDQuery foodTruckID) db.foodTrucks = none := by
        rw [FindOne_eq_none]
        intro t ht
        simpa [WithIDQuery, HasID.id] using h t ht
      unfold GetReviewsOfFoodTruckHandler
      simp only [hnone]
  · intro truck hfind
    obtain ⟨hs, hb⟩ := hbody db truck hfind
    refine ⟨hs, hb, ?_, ?_, ?_⟩
    · intro r
      simp [List.mem_filter]
    · intro hnone
      rw [hb]
      congr 1
      rw [List.filter_eq_nil_iff]
      intro r hr
      simpa using hnone r hr
    · intro g
      obtain ⟨hs2, hb2⟩ := hbody
        { db with reviews := db.reviews.map (fun r => { r with FoodTruck := g r }) } truck hfind
      refine ⟨hs2, ?_⟩
      rw [hb2]
      congr 1
      simp only [List.filter_map]
      congr 1

/-- C12, at a concrete input: of two stored reviews naming `truck-1`, only the
one whose identifier the food truck lists is returned. -/
theorem GetReviewsOfFoodTruckHandler_spec_witness :
    (GetReviewsOfFoodTruckHandler (some "truck-1") sampleReviewsDb).body =
      some [sampleStoredReview] :=
  ((GetReviewsOfFoodTruckHandler_spec "truck-1" sampleReviewsDb).2 sampleTruck rfl).2.1.trans
    (by decide)

/-- The found half of C13 holds: a stored review is answered with 200 and the
review that the lookup finds. -/
theorem GetReviewHandler_found (reviewID : String) (db : Database) (review : JSONReview)
    (hfind : FindOne (WithIDQuery reviewID) db.reviews = some review) :
    (GetReviewHandler (some reviewID) db).status = 200 ∧
    (GetReviewHandler (some reviewID) db).body = some review := by
  unfold GetReviewHandler
  simp only [hfind, and_self]

theorem GetReviewHandler_missing (reviewID : String) (db : Database)
    (hnone : ∀ r ∈ db.reviews, r.ID ≠ reviewID) :
    (GetReviewHandler (some reviewID) db).status = 500 := by
  have hfind : FindOne (WithIDQuery reviewID) db.reviews = none := by
    rw [FindOne_eq_none]
    intro r hr
    simpa [WithIDQuery, HasID.id] using hnone r hr
  unfold GetReviewHandler
  simp only [hfind]

/-- C13 fails on the code for a review that does not exist: no stored review
has the identifier `review-7`, and `GetReviewHandler` answers 500, not 404,
whereas `GetReviewsOfFoodTruckHandler` answers 404 when its lookup by
identifier finds nothing. -/
theorem GetReviewHandler_missing_is_500 :
    (∀ r ∈ sampleReviewsDb.reviews, r.ID ≠ "review-7") ∧
    (GetReviewHandler (some "review-7") sampleReviewsDb).status = 500 ∧
    (GetReviewHandler (some "review-7") sampleReviewsDb).status ≠ 404 ∧
    (GetReviewHandler (some "review-0") sampleReviewsDb).status = 200 ∧
    (GetReviewHandler (some "review-0") sampleReviewsDb).body = some sampleStoredReview ∧
    (GetReviewsOfFoodTruckHandler (some "truck-7") sampleReviewsDb).status = 404 := by
  refine ⟨by decide, by decide, by decide, by decide, by decide, by decide⟩

/-! ## Food-truck update: what it never writes -/

theorem setField_frame (t : JSONFoodTruck) (key : String) (v : BsonValue) :
    (setField t key v).ID = t.ID ∧ (setField t key v).Hours = t.Hours ∧
      (setField t key v).Reviews = t.Reviews := by
  cases v <;> simp only [setField] <;> (repeat' split) <;> exact ⟨rfl, rfl, rfl⟩

theorem applySet_frame (d : BsonD) :
    ∀ t : JSONFoodTruck, (applySet d t).ID = t.ID ∧ (applySet d t).Hours = t.Hours ∧
      (applySet d t).Reviews = t.Reviews := by
  induction d with
  | nil => intro t; exact ⟨rfl, rfl, rfl⟩
  | cons e rest ih =>
    intro t
    have h1 := setField_frame t e.1 e.2
    have h2 := ih (setField t e.1 e.2)
    simp only [applySet, List.foldl_cons] at h2 ⊢
    exact ⟨h2.1.trans h1.1, h2.2.1.trans h1.2.1, h2.2.2.trans h1.2.2⟩

theorem UpdateOne_map_frame {α β : Type} (p : α → Bool) (f : α → α) (g : α → β)
    (hg : ∀ x, g (f x) = g x) (c : List α) :
    (UpdateOne p f c).map g = c.map g := by
  induction c with
  | nil => rfl
  | cons x xs ih =>
    by_cases hx : p x = true
    · simp [UpdateOne, hx, hg]
    · simp [UpdateOne, hx, ih]

theorem FindOne_UpdateOne_frame {α β : Type} (p q : α → Bool) (f : α → α) (g : α → β)
    (hq : ∀ x, q (f x) = q x) (hg : ∀ x, g (f x) = g x) (c : List α) :
    (FindOne q (UpdateOne p f c)).map g = (FindOne q c).map g := by
  induction c with
  | nil => rfl
  | cons x xs ih =>
    by_cases hx : p x = true
    · by_cases hqx : q x = true
      · simp [FindOne, UpdateOne, hx, hq, hqx, hg]
      · simp [FindOne, UpdateOne, hx, hq, hqx]
    · by_cases hqx : q x = true
      · simp [FindOne, UpdateOne, hx, hqx]
      · simp [FindOne, UpdateOne, hx, hqx, ih]

theorem updateData_of_valid (req : updateFoodTruckRequest)
    (hvalid : ∀ (i : Fin 7) (j : Fin 2), IsHHMM (req.Hours i j)) :
    ∃ d, updateData req = .ok d := by
  have hv := (validateHours_all req.Hours).2 hvalid
  unfold updateData
  simp only [hv, ite_self]
  exact ⟨_, rfl⟩

/-- C14: when `PutFoodTrucksHandler` accepts an update request (status 200),
the `$set` document it sends has neither the key `hours` nor the key `reviews`,
and the stored food trucks have, document by document, the same identifier,
hours table and review-identifier list after the update as before; so does the
food truck found under any identifier.  A request that passes the entry gate
with a fully valid hours table is among the accepted ones. -/
theorem PutFoodTrucksHandler_never_sets_hours (foodTruckID : String) (identity : Option String)
    (userAgent : String) (req : updateFoodTruckRequest) (db : Database)
    (hok : (PutFoodTrucksHandler (some foodTruckID) identity userAgent (some req) db).status = 200) :
    (∃ d, updateData req = .ok d ∧ "hours" ∉ d.map Prod.fst ∧ "reviews" ∉ d.map Prod.fst ∧
      (PutFoodTrucksHandler (some foodTruckID) identity userAgent (some req) db).db.foodTrucks =
        UpdateOne (WithIDQuery foodTruckID) (applySet d) db.foodTrucks) ∧
    (PutFoodTrucksHandler (some foodTruckID) identity userAgent (some req) db).db.foodTrucks.map
        (fun t => (t.ID, t.Hours, t.Reviews)) =
      db.foodTrucks.map (fun t => (t.ID, t.Hours, t.Reviews)) ∧
    (∀ id,
      (FindOne (WithIDQuery id)
        (PutFoodTrucksHandler (some foodTruckID) identity userAgent (some req)
          db).db.foodTrucks).map (fun t => (t.Hours, t.Reviews)) =
      (FindOne (WithIDQuery id) db.foodTrucks).map (fun t => (t.Hours, t.Reviews))) ∧
    ∀ (req2 : updateFoodTruckRequest),
      (∀ (i : Fin 7) (j : Fin 2), IsHHMM (req2.Hours i j)) →
      (PutFoodTrucksHandler (some foodTruckID) identity userAgent (some req2) db).status = 200 := by
  have hgate : ¬ ((!identity.isSome && userAgent != "MunchCritic/1.0") = true) := by
    intro hg
    unfold PutFoodTrucksHandler at hok
    simp only [if_pos hg] at hok
    cases hok
  have hacc : ∀ r : updateFoodTruckRequest, ∀ d, updateData r = .ok d →
      (PutFoodTrucksHandler (some foodTruckID) identity userAgent (some r) db).status = 200 ∧
      (PutFoodTrucksHandler (some foodTruckID) identity userAgent (some r) db).db.foodTrucks =
        UpdateOne (WithIDQuery foodTruckID) (applySet d) db.foodTrucks := by
    intro r d hd
    unfold PutFoodTrucksHandler
    simp only [if_neg hgate, hd, and_self]
  have hd : ∃ d, updateData req = .ok d := by
    rcases hu : updateData req with code | d
    · exfalso
      have hcode : code = 400 := by
        unfold updateData at hu
        simp only at hu
        split at hu
        · rename_i c hc
          cases hu
          split at hc
          · exact validateHours_code _ _ _ hc
          · cases hc
        · cases hu
      subst hcode
      unfold PutFoodTrucksHandler at hok
      simp only [if_neg hgate, hu] at hok
      cases hok
    · exact ⟨d, rfl⟩
  obtain ⟨d, hd⟩ := hd
  obtain ⟨-, hdb⟩ := hacc req d hd
  have hkeys := updateData_keys req d hd
  have hframe : ∀ x, (fun t : JSONFoodTruck => (t.ID, t.Hours, t.Reviews)) (applySet d x) =
      (fun t : JSONFoodTruck => (t.ID, t.Hours, t.Reviews)) x := by
    intro x
    obtain ⟨h1, h2, h3⟩ := applySet_frame d x
    simp only [h1, h2, h3]
  refine ⟨⟨d, hd, ?_, ?_, hdb⟩, ?_, ?_, ?_⟩
  · rw [hkeys]; simp
  · rw [hkeys]; simp
  · rw [hdb]
    exact UpdateOne_map_frame _ _ _ hframe _
  · intro id
    rw [hdb]
    refine FindOne_UpdateOne_frame _ _ _ _ ?_ ?_ _
    · intro x
      simp only [WithIDQuery, HasID.id, (applySet_frame d x).1]
    · intro x
      simp only [(applySet_frame d x).2.1, (applySet_frame d x).2.2]
  · intro req2 hvalid
    obtain ⟨d2, hd2⟩ := updateData_of_valid req2 hvalid
    exact (hacc req2 d2 hd2).1

/-- C14, at a concrete input: an accepted update that supplies the valid table
of fourteen `10:30` leaves the stored table and review list of `truck-1` as
they were. -/
theorem PutFoodTrucksHandler_never_sets_hours_witness :
    (FindOne (WithIDQuery "truck-1")
      (PutFoodTrucksHandler (some "truck-1") (some "user-1") ""
        (some { sampleUpdate with Hours := fun _ _ => "10:30" }) sampleDb).db.foodTrucks).map
      (fun t => (t.Hours, t.Reviews)) = some (sampleHours, ["review-0"]) :=
  ((PutFoodTrucksHandler_never_sets_hours "truck-1" (some "user-1") ""
    { sampleUpdate with Hours := fun _ _ => "10:30" } sampleDb (by decide)).2.2.1
    "truck-1").trans rfl
/-! ## Bounds on the new average -/

theorem newAverage_bounds (a r lo hi : ℚ) (n : ℕ) (hlo : lo ≤ r) (hhi : r ≤ hi)
    (ha : n = 0 ∨ (lo ≤ a ∧ a ≤ hi)) :
    lo ≤ (a * n + r) / (n + 1) ∧ (a * n + r) / (n + 1) ≤ hi := by
  have hpos : (0 : ℚ) < (n : ℚ) + 1 := by positivity
  have hn : (0 : ℚ) ≤ (n : ℚ) := Nat.cast_nonneg n
  rw [le_div_iff₀ hpos, div_le_iff₀ hpos]
  rcases ha with h0 | ⟨h1, h2⟩
  · subst h0
    simp only [Nat.cast_zero, mul_zero, zero_add, mul_one]
    exact ⟨hlo, hhi⟩
  · constructor
    · have := mul_le_mul_of_nonneg_right h1 hn
      linarith
    · have := mul_le_mul_of_nonneg_right h2 hn
      linarith

/-- The new average read over exact rationals: when `PostReviewsHandler`
answers 200 for a rating `r` on a food truck found with stored average `a` and
`n` review identifiers, and `r` lies in `[lo, hi]` and (`n = 0` or `a` lies in
`[lo, hi]`), then the average stored afterwards lies in `[lo, hi]`, and for
`n = 0` it equals `r`.  (The `float64` code rounds: see the section on
review submission in `float64`.) -/
theorem PostReviewsHandler_average_within_bounds (env : Env) (identity : Option String)
    (userAgent : String) (req : newReviewRequest) (db : Database)
    (ft : String) (r : ℚ) (truck : JSONFoodTruck) (lo hi : ℚ)
    (hft : req.FoodTruck = some ft) (hr : req.Rating = some r)
    (hfind : FindOne (WithIDQuery ft) db.foodTrucks = some truck)
    (hok : (PostReviewsHandler env identity userAgent (some req) db).status = 200)
    (hlo : lo ≤ r) (hhi : r ≤ hi)
    (ha : truck.Reviews.length = 0 ∨ (lo ≤ truck.AvgRating ∧ truck.AvgRating ≤ hi)) :
    ∃ v, storedAvgRating (PostReviewsHandler env identity userAgent (some req) db).db ft = some v ∧
      v = (truck.AvgRating * truck.Reviews.length + r) / (truck.Reviews.length + 1) ∧
      lo ≤ v ∧ v ≤ hi ∧ (truck.Reviews.length = 0 → v = r) := by
  have h1 := PostReviewsHandler_ok_truck env identity userAgent req db ft r truck hft hr hfind hok
  obtain ⟨hb1, hb2⟩ := newAverage_bounds truck.AvgRating r lo hi truck.Reviews.length hlo hhi ha
  refine ⟨_, by simp only [storedAvgRating, h1, Option.map_some']; rfl, rfl, hb1, hb2, ?_⟩
  intro h0
  simp only [UpdateFoodTruckWithReview, h0, Nat.cast_zero, mul_zero, zero_add, div_one]

/-- The bound over exact rationals at concrete inputs: on the sample food truck
(average 4, one review) a rating of 5 keeps the average within the scale from
1 to 5. -/
theorem PostReviewsHandler_average_within_bounds_witness :
    ∃ v, storedAvgRating
        (PostReviewsHandler sampleEnv (some "user-1") "" (some sampleReview) sampleDb).db
        "truck-1" = some v ∧ 1 ≤ v ∧ v ≤ 5 := by
  obtain ⟨v, hv, -, h1, h2, -⟩ :=
    PostReviewsHandler_average_within_bounds sampleEnv (some "user-1") "" sampleReview sampleDb
      "truck-1" 5 sampleTruck 1 5 rfl rfl rfl (by decide) (by norm_num) (by norm_num)
      (Or.inr (by norm_num [sampleTruck]))
  exact ⟨v, hv, h1, h2⟩

/-! ## Registration followed by login -/

theorem InsertOneUser_eq_some (doc : JSONUser) (c c2 : List JSONUser)
    (h : InsertOneUser doc c = some c2) :
    c2 = c ++ [doc] ∧ ∀ d ∈ c, d.ID ≠ doc.ID ∧ d.Email ≠ doc.Email := by
  unfold InsertOneUser at h
  split at h
  · cases h
  · rename_i hany
    simp only [Option.some.injEq] at h
    refine ⟨h.symm, ?_⟩
    intro d hd
    simp only [List.any_eq_true, Bool.or_eq_true, beq_iff_eq, not_exists, not_and, not_or]
      at hany
    exact hany d hd

/-- A run of `PostRegisterHandler` that answers 200, spelled out. -/
theorem PostRegisterHandler_ok (bcrypt : Bcrypt) (salt : Nat) (env : Env)
    (req : registerRequest) (db : Database)
    (hok : (PostRegisterHandler bcrypt salt env (some req) db).status = 200) :
    ∃ nameFirst nameLast email password dateOfBirth uuid,
      req.NameFirst = some nameFirst ∧ req.NameLast = some nameLast ∧ req.Email = some email ∧
      req.Password = some password ∧ req.DateOfBirth = some dateOfBirth ∧
      env.uuid = some uuid ∧
      (∀ u ∈ db.users, u.ID ≠ uuid ∧ u.Email ≠ email) ∧
      (PostRegisterHandler bcrypt salt env (some req) db).db.users =
        db.users ++
          [{ ID := uuid, PasswordHash := (bcrypt.GenerateFromPassword password salt).getD [],
             NameFirst := nameFirst, NameLast := nameLast, Email := email,
             DateOfBirth := dateOfBirth, Favorites := [], Reviews := [],
             OwnedFoodTrucks := [] }] := by
  unfold PostRegisterHandler at hok ⊢
  simp only at hok ⊢
  split at hok
  · rename_i nameFirst nameLast email password dateOfBirth h1 h2 h3 h4 h5
    split at hok
    · cases hok
    · rename_i uuid huuid
      split at hok
      · cases hok
      · rename_i users hins
        obtain ⟨husers, hfresh⟩ := InsertOneUser_eq_some _ _ _ hins
        exact ⟨nameFirst, nameLast, email, password, dateOfBirth, uuid, h1, h2, h3, h4, h5,
          huuid, hfresh, husers⟩
  · cases hok

theorem expiry_after_login (now : Time) : (now.Add (Minute * 15)).Unix = now.Unix + 900 := by
  simp only [Time.Add, Time.Unix, Minute]
  omega

/-- The login that follows a registration: on the database that
`PostRegisterHandler` leaves, the lookup by the registered email finds the new
user, and the answer is 200 exactly when `CompareHashAndPassword` accepts the
stored hash (the hash the primitive returned, the nil hash when it returned an
error) and signing succeeds; the token is then signed over the subject drawn
at registration and the expiry 900 seconds after the second of the login. -/
theorem register_then_login (bcrypt : Bcrypt) (sign : Signer) (salt : Nat) (env env2 : Env)
    (req : registerRequest) (db : Database)
    (hreg : (PostRegisterHandler bcrypt salt env (some req) db).status = 200) :
    ∃ uuid password, env.uuid = some uuid ∧ req.Password = some password ∧
      ((bcrypt.CompareHashAndPassword
          ((bcrypt.GenerateFromPassword password salt).getD []) password = false) →
        (PostLoginHandler bcrypt sign env2 (some { Email := req.Email, Password := req.Password })
          (PostRegisterHandler bcrypt salt env (some req) db).db).status = 401) ∧
      ((bcrypt.CompareHashAndPassword
          ((bcrypt.GenerateFromPassword password salt).getD []) password = true) →
        ∀ token, sign { ExpiresAt := env2.now.Unix + 900, Subject := uuid } = some token →
        (PostLoginHandler bcrypt sign env2 (some { Email := req.Email, Password := req.Password })
          (PostRegisterHandler bcrypt salt env (some req) db).db).status = 200 ∧
        (PostLoginHandler bcrypt sign env2 (some { Email := req.Email, Password := req.Password })
          (PostRegisterHandler bcrypt salt env (some req) db).db).body =
            some { Token := token }) := by
  obtain ⟨nameFirst, nameLast, email, password, dateOfBirth, uuid, -, -, hE, hP, -, huuid, hfresh,
    husers⟩ := PostRegisterHandler_ok bcrypt salt env req db hreg
  have hfind : FindOne (UserWithEmail email)
      (PostRegisterHandler bcrypt salt env (some req) db).db.users =
      some { ID := uuid, PasswordHash := (bcrypt.GenerateFromPassword password salt).getD [],
             NameFirst := nameFirst, NameLast := nameLast, Email := email,
             DateOfBirth := dateOfBirth, Favorites := [], Reviews := [],
             OwnedFoodTrucks := [] } := by
    rw [husers]
    apply FindOne_append_fresh
    · intro d hd
      simpa [UserWithEmail] using (hfresh d hd).2
    · simp [UserWithEmail]
  refine ⟨uuid, password, huuid, hP, ?_, ?_⟩
  · intro hcmp
    unfold PostLoginHandler
    simp only [hE, hP, hfind, hcmp, Bool.not_false, if_true]
  · intro hcmp token htoken
    constructor
    · unfold PostLoginHandler
      simp only [hE, hP, hfind, hcmp, Bool.not_true, Bool.false_eq_true, if_false,
        expiry_after_login, htoken]
    · unfold PostLoginHandler
      simp only [hE, hP, hfind, hcmp, Bool.not_true, Bool.false_eq_true, if_false,
        expiry_after_login, htoken]

/-- Registration followed by login when the hashing primitive returned a hash:
if the primitive verifies every hash it produced and signing succeeds, the
login with the same email and password on the database that a successful
registration leaves is answered 200 with the token signed over the subject
drawn at registration and the expiry 900 seconds after the second of the
login. -/
theorem register_then_login_of_hash (bcrypt : Bcrypt) (sign : Signer) (salt : Nat)
    (env env2 : Env) (req : registerRequest) (db : Database)
    (hverify : ∀ password s hash, bcrypt.GenerateFromPassword password s = some hash →
      bcrypt.CompareHashAndPassword hash password = true)
    (hsign : ∀ claims, ∃ token, sign claims = some token)
    (hhash : ∀ password, req.Password = some password →
      ∃ hash, bcrypt.GenerateFromPassword password salt = some hash)
    (hreg : (PostRegisterHandler bcrypt salt env (some req) db).status = 200) :
    ∃ uuid token, env.uuid = some uuid ∧
      sign { ExpiresAt := env2.now.Unix + 900, Subject := uuid } = some token ∧
      (PostLoginHandler bcrypt sign env2 (some { Email := req.Email, Password := req.Password })
        (PostRegisterHandler bcrypt salt env (some req) db).db).status = 200 ∧
      (PostLoginHandler bcrypt sign env2 (some { Email := req.Email, Password := req.Password })
        (PostRegisterHandler bcrypt salt env (some req) db).db).body = some { Token := token } := by
  obtain ⟨uuid, password, huuid, hP, -, hyes⟩ :=
    register_then_login bcrypt sign salt env env2 req db hreg
  obtain ⟨hash, hgen⟩ := hhash password hP
  obtain ⟨token, htoken⟩ := hsign { ExpiresAt := env2.now.Unix + 900, Subject := uuid }
  have hcmp : bcrypt.CompareHashAndPassword
      ((bcrypt.GenerateFromPassword password salt).getD []) password = true := by
    rw [hgen, Option.getD_some]
    exact hverify password salt hash hgen
  exact ⟨uuid, token, huuid, htoken, hyes hcmp token htoken⟩

/-- C11 fails on the code for a password that the hashing primitive rejects.
The sample primitive verifies every hash it produced and the sample signer
always succeeds.  A registration with all five fields, an unregistered email
and a password of 73 bytes is answered 200, and the user is stored with the nil
hash, because the error of `bcrypt.GenerateFromPassword` is never looked at;
the login with the same email and password that follows is answered 401
without a token. -/
theorem register_long_password_cannot_login :
    (∀ password salt hash, sampleBcrypt.GenerateFromPassword password salt = some hash →
      sampleBcrypt.CompareHashAndPassword hash password = true) ∧
    (∀ claims, ∃ token, sampleSigner claims = some token) ∧
    sampleBcrypt.GenerateFromPassword longPassword 7 = none ∧
    (PostRegisterHandler sampleBcrypt 7 { uuid := some "user-2", now := 0 }
      (some { sampleRegister with Password := some longPassword }) sampleDb).status = 200 ∧
    (FindOne (UserWithEmail "tester@example.com")
      (PostRegisterHandler sampleBcrypt 7 { uuid := some "user-2", now := 0 }
        (some { sampleRegister with Password := some longPassword }) sampleDb).db.users).map
      JSONUser.PasswordHash = some [] ∧
    (PostLoginHandler sampleBcrypt sampleSigner { uuid := none, now := 2000 }
      (some { Email := some "tester@example.com", Password := some longPassword })
      (PostRegisterHandler sampleBcrypt 7 { uuid := some "user-2", now := 0 }
        (some { sampleRegister with Password := some longPassword }) sampleDb).db).status = 401 ∧
    (PostLoginHandler sampleBcrypt sampleSigner { uuid := none, now := 2000 }
      (some { Email := some "tester@example.com", Password := some longPassword })
      (PostRegisterHandler sampleBcrypt 7 { uuid := some "user-2", now := 0 }
        (some { sampleRegister with Password := some longPassword }) sampleDb).db).body = none := by
  refine ⟨?_, fun claims => ⟨_, rfl⟩, by decide, by decide, by decide, by decide, by decide⟩
  intro password salt hash h
  simp only [sampleBcrypt] at h ⊢
  split at h
  · cases h
  · cases h
    simp

/-! ## Review submission in float64 -/

namespace Float64

end Float64

namespace Float64

end Float64

namespace Float64

end Float64

end MunchServer
